import Mathlib

/-!
Verification development for the langgraph-crm-agent repository.

The Python sources (app/agent/workflow.py, app/agent/helpers.py,
app/agent/tools.py) are shallowly embedded below.  Python strings are
modelled through their character lists so that every definition evaluates
inside the kernel; external collaborators (the planner LLM, json.loads,
regular-expression repairs, the database connection, the finalizer LLM)
are passed in as explicit function arguments (oracles).  Fallible calls
are modelled with Option.
-/

-- ===========================================================================
-- Character and string utilities (kernel-computable replacements for the
-- Python str operations used by the sources).
-- ===========================================================================

/-- The apostrophe character (written via its code point). -/
def apostChar : Char := Char.ofNat 39

/-- Python str.strip removes ASCII whitespace including vertical tab and
form feed. -/
def pySpace (c : Char) : Bool :=
  c.isWhitespace || c = Char.ofNat 11 || c = Char.ofNat 12

def trimListL (l : List Char) : List Char :=
  ((l.dropWhile pySpace).reverse.dropWhile pySpace).reverse

/-- Model of Python str.strip(). -/
def trimS (s : String) : String := String.mk (trimListL s.toList)

/-- Model of Python str.lower() (ASCII case folding). -/
def lowerS (s : String) : String := String.mk (s.toList.map Char.toLower)

/-- Model of Python startswith. -/
def startsWithS (s pre : String) : Bool := pre.toList.isPrefixOf s.toList

/-- Model of Python endswith. -/
def endsWithS (s suf : String) : Bool :=
  suf.toList.reverse.isPrefixOf s.toList.reverse

/-- Containment of one character list in another (model of the SQL LIKE
pattern with wildcards on both sides, and of the Python in operator). -/
def listContainsSeg (pat : List Char) : List Char → Bool
  | [] => pat.isEmpty
  | c :: rest => pat.isPrefixOf (c :: rest) || listContainsSeg pat rest

def containsSubS (hay pat : String) : Bool := listContainsSeg pat.toList hay.toList

/-- Replace the first occurrence of a pattern (model of str.replace(a, b, 1)). -/
def replaceFirstL (pat rep : List Char) : List Char → List Char
  | [] => []
  | c :: rest =>
    if pat.isPrefixOf (c :: rest) then rep ++ (c :: rest).drop pat.length
    else c :: replaceFirstL pat rep rest

def replaceFirstS (s pat rep : String) : String :=
  String.mk (replaceFirstL pat.toList rep.toList s.toList)

/-- Replace every apostrophe by a double quote (model of replace with a
one-character pattern). -/
def mapApostToQuote (s : String) : String :=
  String.mk (s.toList.map (fun c => if c = apostChar then '"' else c))

/-- Split a character list at the first occurrence of a character
(model of str.split(c, 1) when the character occurs). -/
def splitAtChar (c : Char) : List Char → Option (List Char × List Char)
  | [] => none
  | x :: xs =>
    if x = c then some ([], xs)
    else
      match splitAtChar c xs with
      | some (a, b) => some (x :: a, b)
      | none => none

/-- Join strings with a separator (model of str.join). -/
def joinWith (sep : String) : List String → String
  | [] => ""
  | [x] => x
  | x :: y :: xs => x ++ sep ++ joinWith sep (y :: xs)

-- ===========================================================================
-- helpers.py: extract_ref_from_text and the regular expressions it uses.
-- ===========================================================================

/-- Word characters for the regex word boundary. -/
def wordChar (c : Char) : Bool := c.isAlphanum || c = '_'

/-- Characters of the class [0-9a-fA-F]. -/
def hexChar (c : Char) : Bool :=
  c.isDigit || ('a' ≤ c && c ≤ 'f') || ('A' ≤ c && c ≤ 'F')

/-- Consume exactly n hex characters, returning the remaining input. -/
def hexRun : Nat → List Char → Option (List Char)
  | 0, rest => some rest
  | _ + 1, [] => none
  | n + 1, c :: rest => if hexChar c then hexRun n rest else none

def dashThen : List Char → Option (List Char)
  | [] => none
  | c :: rest => if c = '-' then some rest else none

/-- Does the input start with the 8-4-4-4-12 hex shape of the UUID pattern?
Returns the input after the 36 matched characters. -/
def uuidAt (l : List Char) : Option (List Char) :=
  match hexRun 8 l with
  | none => none
  | some l1 =>
    match dashThen l1 with
    | none => none
    | some l2 =>
      match hexRun 4 l2 with
      | none => none
      | some l3 =>
        match dashThen l3 with
        | none => none
        | some l4 =>
          match hexRun 4 l4 with
          | none => none
          | some l5 =>
            match dashThen l5 with
            | none => none
            | some l6 =>
              match hexRun 4 l6 with
              | none => none
              | some l7 =>
                match dashThen l7 with
                | none => none
                | some l8 => hexRun 12 l8

/-- Leftmost search for the UUID pattern with word boundaries on both sides
(the first pattern character is a hex digit, hence a word character, so the
left boundary holds exactly when the previous character is absent or not a
word character; symmetrically on the right). -/
def findUuidFrom : Option Char → List Char → Option (List Char)
  | _, [] => none
  | prev, c :: rest =>
    let boundaryOk := match prev with
      | none => true
      | some p => !(wordChar p)
    let shapeOk := match uuidAt (c :: rest) with
      | some after =>
        match after with
        | [] => true
        | d :: _ => !(wordChar d)
      | none => false
    if boundaryOk && shapeOk then some ((c :: rest).take 36)
    else findUuidFrom (some c) rest

/-- Characters of the class [A-Za-z0-9._%+-]. -/
def localChar (c : Char) : Bool :=
  c.isAlphanum || c = '.' || c = '_' || c = '%' || c = '+' || c = '-'

/-- Characters of the class [A-Za-z0-9.-]. -/
def domainChar (c : Char) : Bool := c.isAlphanum || c = '.' || c = '-'

/-- Try to place the literal dot of the email pattern at index d of the
domain run: requires a dot there and at least two letters right after it;
the letter group is greedy. -/
def emailDomTry (dom : List Char) (d : Nat) : Option (List Char) :=
  match dom.get? d with
  | some ch =>
    if ch = '.' then
      let run := (dom.drop (d + 1)).takeWhile Char.isAlpha
      if 2 ≤ run.length then some (dom.take d ++ '.' :: run) else none
    else none
  | none => none

/-- Backtracking of the greedy [A-Za-z0-9.-]+ group: try the largest
dot position first. Index 0 is never tried because the group needs at
least one character before the dot. -/
def emailDomAux (dom : List Char) : Nat → Option (List Char)
  | 0 => none
  | d + 1 =>
    match emailDomTry dom (d + 1) with
    | some m => some m
    | none => emailDomAux dom d

def emailDomSplit (dom : List Char) : Option (List Char) :=
  match dom.length with
  | 0 => none
  | n + 1 => emailDomAux dom n

/-- Match of the email pattern anchored at the start of the input: a
nonempty greedy run of local characters, an at sign, then the domain part.
The local run needs no backtracking because the at sign is not a local
character. Returns the matched characters. -/
def emailAt (l : List Char) : Option (List Char) :=
  let loc := l.takeWhile localChar
  if loc.isEmpty then none
  else
    match l.drop loc.length with
    | '@' :: tail =>
      let dom := tail.takeWhile domainChar
      match emailDomSplit dom with
      | some matchedDom => some (loc ++ '@' :: matchedDom)
      | none => none
    | _ => none

/-- Leftmost search for the email pattern. -/
def findEmailFrom : List Char → Option (List Char)
  | [] => none
  | c :: rest =>
    match emailAt (c :: rest) with
    | some m => some m
    | none => findEmailFrom rest

/-- helpers.extract_ref_from_text: uuid pattern first, then email pattern,
then all digits of the text when at least 8 remain. -/
def extract_ref_from_text (text : String) : Option String :=
  if text = "" then none
  else
    match findUuidFrom none text.toList with
    | some u => some (String.mk u)
    | none =>
      match findEmailFrom text.toList with
      | some e => some (String.mk e)
      | none =>
        let digits := text.toList.filter Char.isDigit
        if 8 ≤ digits.length then some (String.mk digits) else none

theorem emailAt_at_mem {l m : List Char} (h : emailAt l = some m) : '@' ∈ m := by
  unfold emailAt at h
  by_cases hloc : (l.takeWhile localChar).isEmpty
  · simp [hloc] at h
  · rw [if_neg hloc] at h
    split at h
    · simp only [] at h
      split at h
      · cases h
        exact List.mem_append_right _ (List.mem_cons_self _ _)
      · cases h
    · cases h

theorem findEmailFrom_at_mem : ∀ {l m : List Char}, findEmailFrom l = some m → '@' ∈ m := by
  intro l
  induction l with
  | nil => intro m h; cases h
  | cons c rest ih =>
    intro m h
    unfold findEmailFrom at h
    cases hat : emailAt (c :: rest) with
    | some e => rw [hat] at h; cases h; exact emailAt_at_mem hat
    | none => rw [hat] at h; exact ih h

/-- C8: extract_ref_from_text prefers a UUID-shaped match, then an
email-shaped match (the returned reference contains an at sign, so for a
text holding both an email and a phone number the email wins), then the
digits of the whole text when at least 8 remain. -/
theorem C8_ref_extraction_priority (s : String) :
    (∀ u, findUuidFrom none s.toList = some u →
       extract_ref_from_text s = some (String.mk u)) ∧
    (findUuidFrom none s.toList = none → ∀ e, findEmailFrom s.toList = some e →
       extract_ref_from_text s = some (String.mk e) ∧ '@' ∈ e) ∧
    (findUuidFrom none s.toList = none → findEmailFrom s.toList = none →
       extract_ref_from_text s =
         (if 8 ≤ (s.toList.filter Char.isDigit).length then
            some (String.mk (s.toList.filter Char.isDigit)) else none)) := by
  refine ⟨?_, ?_, ?_⟩
  · intro u hu
    by_cases hs : s = ""
    · subst hs; cases hu
    · unfold extract_ref_from_text
      rw [if_neg hs, hu]
  · intro hu e he
    refine ⟨?_, findEmailFrom_at_mem he⟩
    by_cases hs : s = ""
    · subst hs; cases he
    · unfold extract_ref_from_text
      rw [if_neg hs, hu, he]
  · intro hu he
    by_cases hs : s = ""
    · subst hs; decide
    · unfold extract_ref_from_text
      rw [if_neg hs, hu, he]

theorem C8_ref_extraction_priority_witness :
    extract_ref_from_text "contato ana@empresa.com tel 11 98765-4321" =
      some "ana@empresa.com" ∧ '@' ∈ ("ana@empresa.com" : String).toList := by
  have h := (C8_ref_extraction_priority "contato ana@empresa.com tel 11 98765-4321").2.1
    (by decide) ("ana@empresa.com" : String).toList (by decide)
  exact ⟨h.1, h.2⟩

/-- C10: when the text holds neither a UUID-shaped nor an email-shaped
substring, extract_ref_from_text strips every non-digit character of the
whole text and returns the concatenation of all remaining digits exactly
when at least 8 digits remain, and none otherwise. -/
theorem C10_phone_digit_fallback (s : String)
    (hu : findUuidFrom none s.toList = none)
    (he : findEmailFrom s.toList = none) :
    (8 ≤ (s.toList.filter Char.isDigit).length →
       extract_ref_from_text s = some (String.mk (s.toList.filter Char.isDigit))) ∧
    ((s.toList.filter Char.isDigit).length < 8 →
       extract_ref_from_text s = none) := by
  have h := (C8_ref_extraction_priority s).2.2 hu he
  constructor
  · intro hlen; rw [h, if_pos hlen]
  · intro hlen; rw [h, if_neg (by omega)]

theorem C10_phone_digit_fallback_witness :
    extract_ref_from_text "a1 b2; c3 d4# e5 (f6) g7 -h8" = some "12345678" ∧
    extract_ref_from_text "a1 b2; c3" = none := by
  refine ⟨(C10_phone_digit_fallback "a1 b2; c3 d4# e5 (f6) g7 -h8"
    (by decide) (by decide)).1 (by decide), ?_⟩
  exact (C10_phone_digit_fallback "a1 b2; c3" (by decide) (by decide)).2 (by decide)

-- ===========================================================================
-- A small model of parsed JSON / Python literal values.  Values appearing
-- inside slot dictionaries and response-segment data are stored through
-- their textual rendering (which is exactly what the f-strings of the
-- sources apply to them); numbers keep their literal text.
-- ===========================================================================

inductive Json where
  | null
  | bool (b : Bool)
  | num (lit : String)
  | str (s : String)
  | arr (xs : List Json)
  | obj (fields : List (String × Json))

/-- Dictionary access on a parsed object (Python dict.get, returning None
for a missing key or a non-dict value). -/
def jGet : Json → String → Option Json
  | Json.obj fields, k => assocFind fields k
  | _, _ => none
where
  assocFind : List (String × Json) → String → Option Json
  | [], _ => none
  | (k1, v) :: rest, k => if k1 = k then some v else assocFind rest k

/-- Python dict.get with default None. -/
def jGetD (j : Json) (k : String) : Json := (jGet j k).getD Json.null

/-- Python truthiness of parsed values.  Numeric zero literals are
modelled as falsy. -/
def jsonTruthy : Json → Bool
  | Json.null => false
  | Json.bool b => b
  | Json.num lit => !(lit = "0" || lit = "0.0" || lit = "-0.0")
  | Json.str s => !(s = "")
  | Json.arr xs => !xs.isEmpty
  | Json.obj fields => !fields.isEmpty

mutual

/-- Python str() rendering of a parsed value (exact for None, booleans,
strings and numeric literals, which are the cases the sources interpolate;
containers are rendered without the inner quoting Python would add). -/
def jsonToStr : Json → String
  | Json.null => "None"
  | Json.bool true => "True"
  | Json.bool false => "False"
  | Json.num lit => lit
  | Json.str s => s
  | Json.arr xs => "[" ++ jsonListToStr xs ++ "]"
  | Json.obj fields => "\x7b" ++ jsonFieldsToStr fields ++ "\x7d"

def jsonListToStr : List Json → String
  | [] => ""
  | [x] => jsonToStr x
  | x :: y :: xs => jsonToStr x ++ ", " ++ jsonListToStr (y :: xs)

def jsonFieldsToStr : List (String × Json) → String
  | [] => ""
  | [(k, v)] => k ++ ": " ++ jsonToStr v
  | (k, v) :: f :: fs => k ++ ": " ++ jsonToStr v ++ ", " ++ jsonFieldsToStr (f :: fs)

end

/-- Rendering of an optional lookup result (str() of dict.get output). -/
def jsonToStrOpt : Option Json → String
  | none => "None"
  | some j => jsonToStr j

-- ===========================================================================
-- Slot dictionaries.  Python slot dicts map names to values; the
-- orchestration code only ever compares, copies and injects string-rendered
-- values, so slot values are modelled as strings (the rendering of the
-- parsed value).  Insertion order is the list order; keys are unique.
-- ===========================================================================

/-- A slot mapping: association list in insertion order. -/
abbrev Slots := List (String × String)

def lookupSlot : Slots → String → Option String
  | [], _ => none
  | (k1, v) :: rest, k => if k1 = k then some v else lookupSlot rest k

/-- Python truthiness of slots.get(name): present with a nonempty value. -/
def slotTruthy (slots : Slots) (k : String) : Bool :=
  match lookupSlot slots k with
  | some v => !(v = "")
  | none => false

def containsKey (slots : Slots) (k : String) : Bool :=
  match lookupSlot slots k with
  | some _ => true
  | none => false

/-- Python dict assignment: overwrite in place when the key exists,
append otherwise. -/
def dictSet : Slots → String → String → Slots
  | [], k, v => [(k, v)]
  | (k1, v1) :: rest, k, v =>
    if k1 = k then (k1, v) :: rest else (k1, v1) :: dictSet rest k v

/-- Python dict.setdefault: only insert when the key is absent. -/
def dictSetDefault (slots : Slots) (k v : String) : Slots :=
  if containsKey slots k then slots else slots ++ [(k, v)]

-- ===========================================================================
-- workflow.py: intent tables.
-- ===========================================================================

def LEAD_INTENTS : List String :=
  ["lead_criar", "lead_obter", "lead_buscar", "lead_listar", "lead_atualizar"]

def NOTE_INTENTS : List String := ["nota_adicionar", "nota_listar"]

def TASK_INTENTS : List String := ["tarefa_criar", "tarefa_concluir", "tarefa_listar"]

def PROPOSAL_INTENTS : List String :=
  ["proposta_rascunhar", "proposta_adicionar_item", "proposta_calcular_totais",
   "proposta_listar", "proposta_exportar", "proposta_atualizar_corpo"]

def INTENTS_REQUIRING_LEAD : List String :=
  ["lead_obter", "lead_atualizar", "nota_adicionar", "nota_listar",
   "tarefa_criar", "tarefa_listar", "proposta_rascunhar", "proposta_listar"]

def REQUIRED_SLOTS : String → List String
  | "lead_criar" => ["nome"]
  | "lead_obter" => ["lead_ref_ou_id"]
  | "lead_buscar" => ["consulta"]
  | "lead_atualizar" => ["lead_ref_ou_id"]
  | "nota_adicionar" => ["texto"]
  | "tarefa_criar" => ["titulo"]
  | "tarefa_concluir" => ["tarefa_id"]
  | "proposta_rascunhar" => ["titulo"]
  | "proposta_adicionar_item" =>
      ["proposta_id", "descricao", "quantidade", "preco_unitario"]
  | "proposta_calcular_totais" => ["proposta_id"]
  | "proposta_exportar" => ["proposta_id", "formato"]
  | "proposta_atualizar_corpo" => ["proposta_id", "corpo_md"]
  | _ => []

-- ===========================================================================
-- Core data: actions, the resolved-lead context, response segments and the
-- per-turn context dictionary.
-- ===========================================================================

/-- One planned action of the pending queue: intent plus slot dict. -/
structure PlanAction where
  intent : String
  slots : Slots
deriving DecidableEq, Repr

/-- The consolidated lead context (lead_atual): the four fields that
lead_context_from_result extracts; absent fields are empty strings. -/
structure LeadCtx where
  leadId : String
  nome : String
  email : String
  empresa : String
deriving DecidableEq, Repr

/-- Python truthiness of (lead_atual and lead_atual.get("lead_id")). -/
def leadResolvedB : Option LeadCtx → Bool
  | none => false
  | some la => !(la.leadId = "")

def leadIdOf : Option LeadCtx → String
  | none => ""
  | some la => la.leadId

/-- One disambiguation candidate returned by the fuzzy lead search. -/
structure MatchRow where
  leadId : String
  nome : String
  email : String
  empresa : String
deriving DecidableEq, Repr

/-- One response segment recorded by push_ai_response (data values are
stored string-rendered, exactly as the f-strings of the sources use them). -/
structure Seg where
  intent : String
  text : String
  ok : Bool
  data : List (String × String)
deriving DecidableEq, Repr

/-- The per-turn context dictionary (absent keys of the Python dict are
the defaults below). -/
structure Ctx where
  pendingActions : List PlanAction := []
  aiResponses : List Seg := []
  routerBlocked : Bool := false
  routerMissing : List String := []
  needLeadResolution : Bool := false
  leadResolutionAttempted : Bool := false
  replanned : Bool := false
  -- context key "matches" (the word matches is reserved in Lean)
  leadMatches : Option (List MatchRow) := none
deriving DecidableEq, Repr

/-- helpers.push_ai_response: append one segment in arrival order. -/
def push_ai_response (ctx : Ctx) (intent text : String) (ok : Bool)
    (data : List (String × String)) : Ctx :=
  { ctx with aiResponses := ctx.aiResponses ++ [⟨intent, text, ok, data⟩] }

/-- Conversation messages.  Tool messages carry, besides their text, the
result of the UUID-cleanup plus ast.literal_eval decoding that
update_context applies to that text (none when that decoding fails). -/
inductive Msg where
  | human (text : String)
  | ai (text : String)
  | tool (name : String) (text : String) (parsed : Option Json)

/-- helpers.extract_text_content. -/
def extractTextContent : Msg → String
  | Msg.human t => t
  | Msg.ai t => t
  | Msg.tool _ t _ => t

/-- The graph state (AgentState fields used by the embedded nodes). -/
structure GState where
  messages : List Msg := []
  intent : String := ""
  slots : Slots := []
  leadAtual : Option LeadCtx := none
  errors : List String := []
  toolResult : Option Json := none
  ctx : Ctx := {}

/-- helpers.has_pending: the conditional edge after update_context. -/
def has_pending (st : GState) : String :=
  if st.ctx.pendingActions.isEmpty then "done" else "execute"

-- ===========================================================================
-- The dedup key: (intent, sorted(slots.items())).  Python sorts the item
-- tuples; since keys inside one dict are unique, only the keys ever get
-- compared, so the sort is modelled as a stable insertion sort on the key
-- strings (lexicographic on characters).
-- ===========================================================================

def listLeB : List Char → List Char → Bool
  | [], _ => true
  | _ :: _, [] => false
  | a :: as, b :: bs =>
    if a < b then true
    else if b < a then false
    else listLeB as bs

theorem listLeB_total : ∀ xs ys : List Char, listLeB xs ys = true ∨ listLeB ys xs = true := by
  intro xs
  induction xs with
  | nil => intro ys; left; rfl
  | cons a as ih =>
    intro ys
    cases ys with
    | nil => right; rfl
    | cons b bs =>
      unfold listLeB
      rcases lt_trichotomy a b with hab | hab | hab
      · left; rw [if_pos hab]
      · subst hab
        have h0 : ¬ (a < a) := lt_irrefl a
        rw [if_neg h0, if_neg h0, if_neg h0, if_neg h0]
        exact ih bs
      · right; rw [if_pos hab]

theorem listLeB_trans : ∀ xs ys zs : List Char,
    listLeB xs ys = true → listLeB ys zs = true → listLeB xs zs = true := by
  intro xs
  induction xs with
  | nil => intro ys zs _ _; rfl
  | cons a as ih =>
    intro ys zs h1 h2
    cases ys with
    | nil => exact absurd h1 (by simp [listLeB])
    | cons b bs =>
      cases zs with
      | nil => exact absurd h2 (by simp [listLeB])
      | cons c cs =>
        unfold listLeB at h1 h2 ⊢
        rcases lt_trichotomy a b with hab | hab | hab
        · rcases lt_trichotomy b c with hbc | hbc | hbc
          · rw [if_pos (lt_trans hab hbc)]
          · subst hbc; rw [if_pos hab]
          · rw [if_neg (lt_asymm hbc), if_pos hbc] at h2; cases h2
        · subst hab
          rw [if_neg (lt_irrefl a), if_neg (lt_irrefl a)] at h1
          rcases lt_trichotomy a c with hac | hac | hac
          · rw [if_pos hac]
          · subst hac
            rw [if_neg (lt_irrefl a), if_neg (lt_irrefl a)] at h2 ⊢
            exact ih bs cs h1 h2
          · rw [if_neg (lt_asymm hac), if_pos hac] at h2; cases h2
        · rw [if_neg (lt_asymm hab), if_pos hab] at h1; cases h1

theorem listLeB_antisymm : ∀ xs ys : List Char,
    listLeB xs ys = true → listLeB ys xs = true → xs = ys := by
  intro xs
  induction xs with
  | nil =>
    intro ys h1 h2
    cases ys with
    | nil => rfl
    | cons b bs => exact absurd h2 (by simp [listLeB])
  | cons a as ih =>
    intro ys h1 h2
    cases ys with
    | nil => exact absurd h1 (by simp [listLeB])
    | cons b bs =>
      unfold listLeB at h1 h2
      rcases lt_trichotomy a b with hab | hab | hab
      · rw [if_neg (lt_asymm hab), if_pos hab] at h2; cases h2
      · subst hab
        rw [if_neg (lt_irrefl a), if_neg (lt_irrefl a)] at h1 h2
        rw [ih bs h1 h2]
      · rw [if_neg (lt_asymm hab), if_pos hab] at h1; cases h1

theorem str_toList_inj : ∀ {s1 s2 : String}, s1.toList = s2.toList → s1 = s2 := by
  intro s1 s2 h
  cases s1
  cases s2
  exact congrArg String.mk h

/-- Comparison of slot items by their key, the only comparison Python
performs when sorting the items of a dict (keys are unique). -/
def slotKeyLe (p q : String × String) : Prop :=
  listLeB p.1.toList q.1.toList = true

instance : DecidableRel slotKeyLe := fun p q => by
  unfold slotKeyLe; infer_instance

instance : IsTotal (String × String) slotKeyLe :=
  ⟨fun p q => listLeB_total p.1.toList q.1.toList⟩

instance : IsTrans (String × String) slotKeyLe :=
  ⟨fun _ _ _ h1 h2 => listLeB_trans _ _ _ h1 h2⟩

/-- Model of sorted(slots.items()). -/
def sortSlots (s : Slots) : Slots := List.insertionSort slotKeyLe s

/-- The dedup key of an action: (intent, sorted(slots.items())). -/
def dedupKey (a : PlanAction) : String × Slots := (a.intent, sortSlots a.slots)

theorem sorted_nodupkeys_perm_eq : ∀ {l1 l2 : Slots}, l1.Perm l2 →
    List.Sorted slotKeyLe l1 → List.Sorted slotKeyLe l2 →
    (l1.map Prod.fst).Nodup → l1 = l2 := by
  intro l1
  induction l1 with
  | nil =>
    intro l2 hp _ _ _
    exact (List.Perm.eq_nil hp.symm).symm
  | cons a t1 ih =>
    intro l2 hp hs1 hs2 hnd
    cases l2 with
    | nil => exact absurd (List.Perm.eq_nil hp) (by simp)
    | cons b t2 =>
      have hab : a = b := by
        have hamem : a ∈ b :: t2 := hp.mem_iff.mp (List.mem_cons_self a t1)
        have hbmem : b ∈ a :: t1 := hp.symm.mem_iff.mp (List.mem_cons_self b t2)
        rcases List.mem_cons.mp hamem with h | hat2
        · exact h
        rcases List.mem_cons.mp hbmem with h | hbt1
        · exact h.symm
        have h1 : slotKeyLe a b := (List.sorted_cons.mp hs1).1 b hbt1
        have h2 : slotKeyLe b a := (List.sorted_cons.mp hs2).1 a hat2
        have hkey : b.1 = a.1 :=
          str_toList_inj (listLeB_antisymm _ _ h2 h1)
        exfalso
        have hmem : a.1 ∈ t1.map Prod.fst := List.mem_map.mpr ⟨b, hbt1, hkey⟩
        exact (List.nodup_cons.mp hnd).1 hmem
      subst hab
      have hpt : t1.Perm t2 := hp.cons_inv
      rw [ih hpt (List.sorted_cons.mp hs1).2 (List.sorted_cons.mp hs2).2
        (List.nodup_cons.mp hnd).2]

theorem sortSlots_perm_eq {s1 s2 : Slots} (hp : s1.Perm s2)
    (hnd : (s1.map Prod.fst).Nodup) : sortSlots s1 = sortSlots s2 := by
  apply sorted_nodupkeys_perm_eq
  · exact (List.perm_insertionSort slotKeyLe s1).trans
      (hp.trans (List.perm_insertionSort slotKeyLe s2).symm)
  · exact List.sorted_insertionSort slotKeyLe s1
  · exact List.sorted_insertionSort slotKeyLe s2
  · exact (((List.perm_insertionSort slotKeyLe s1).map Prod.fst).nodup_iff).mpr hnd

theorem dedupKey_perm_eq {a b : PlanAction} (hi : a.intent = b.intent)
    (hp : a.slots.Perm b.slots) (hnd : (a.slots.map Prod.fst).Nodup) :
    dedupKey a = dedupKey b := by
  unfold dedupKey
  rw [hi, sortSlots_perm_eq hp hnd]

-- ===========================================================================
-- The merge of freshly planned actions into the pending queue
-- (prepare_plan step 1 and update_context step 4.4 share this algorithm):
-- a key set is seeded from the queue and grown as actions are appended.
-- ===========================================================================

def mergeStep (st : List PlanAction × List (String × Slots)) (a : PlanAction) :
    List PlanAction × List (String × Slots) :=
  if dedupKey a ∈ st.2 then st else (st.1 ++ [a], st.2 ++ [dedupKey a])

/-- The dedup merge of workflow.prepare_plan lines 402-408. -/
def mergeActions (pending newActs : List PlanAction) : List PlanAction :=
  (newActs.foldl mergeStep (pending, pending.map dedupKey)).1

/-- Recursive restatement of the merge used for proofs. -/
def mergePlain : List PlanAction → List PlanAction → List PlanAction
  | p, [] => p
  | p, a :: rest =>
    if dedupKey a ∈ p.map dedupKey then mergePlain p rest
    else mergePlain (p ++ [a]) rest

theorem merge_fold_pair : ∀ (acts : List PlanAction) (p : List PlanAction),
    acts.foldl mergeStep (p, p.map dedupKey) =
      (mergePlain p acts, (mergePlain p acts).map dedupKey) := by
  intro acts
  induction acts with
  | nil => intro p; rfl
  | cons a rest ih =>
    intro p
    show rest.foldl mergeStep (mergeStep (p, p.map dedupKey) a) =
      (mergePlain p (a :: rest), (mergePlain p (a :: rest)).map dedupKey)
    rw [show mergePlain p (a :: rest) =
      (if dedupKey a ∈ p.map dedupKey then mergePlain p rest
       else mergePlain (p ++ [a]) rest) from rfl]
    by_cases h : dedupKey a ∈ p.map dedupKey
    · rw [if_pos h, show mergeStep (p, p.map dedupKey) a = (p, p.map dedupKey) from by
        unfold mergeStep; rw [if_pos h]]
      exact ih p
    · rw [if_neg h, show mergeStep (p, p.map dedupKey) a =
        (p ++ [a], (p ++ [a]).map dedupKey) from by
          unfold mergeStep; rw [if_neg h, List.map_append]; rfl]
      exact ih (p ++ [a])

theorem mergeActions_eq_plain (pending newActs : List PlanAction) :
    mergeActions pending newActs = mergePlain pending newActs := by
  unfold mergeActions
  rw [merge_fold_pair]

theorem mergePlain_split : ∀ (newActs pending : List PlanAction),
    ∃ sub, mergePlain pending newActs = pending ++ sub ∧ sub.Sublist newActs := by
  intro newActs
  induction newActs with
  | nil => intro p; exact ⟨[], by simp [mergePlain], List.nil_sublist []⟩
  | cons a rest ih =>
    intro p
    by_cases h : dedupKey a ∈ p.map dedupKey
    · obtain ⟨sub, h1, h2⟩ := ih p
      refine ⟨sub, ?_, h2.cons a⟩
      unfold mergePlain
      rw [if_pos h]
      exact h1
    · obtain ⟨sub, h1, h2⟩ := ih (p ++ [a])
      refine ⟨a :: sub, ?_, h2.cons₂ a⟩
      unfold mergePlain
      rw [if_neg h, h1, List.append_assoc]
      rfl

/-- C3: the merge is idempotent on dedup keys: an action whose key
(intent with sorted slot items) is already present in the queue is not
appended, so merging the same action twice, with its slots in any
insertion order, leaves exactly one copy; and whatever new actions
survive are appended after the queue in planner-returned order. -/
theorem C3_idempotent_merge :
    (∀ (pending : List PlanAction) (a : PlanAction),
        dedupKey a ∈ pending.map dedupKey → mergeActions pending [a] = pending) ∧
    (∀ a b : PlanAction, a.intent = b.intent → a.slots.Perm b.slots →
        (a.slots.map Prod.fst).Nodup → mergeActions [] [a, b] = [a]) ∧
    (∀ (pending newActs : List PlanAction),
        ∃ sub, mergeActions pending newActs = pending ++ sub ∧
          sub.Sublist newActs) := by
  refine ⟨?_, ?_, ?_⟩
  · intro pending a h
    rw [mergeActions_eq_plain]
    rw [show mergePlain pending [a] =
      (if dedupKey a ∈ pending.map dedupKey then mergePlain pending []
       else mergePlain (pending ++ [a]) []) from rfl]
    rw [if_pos h]
    rfl
  · intro a b hi hp hnd
    rw [mergeActions_eq_plain]
    rw [show mergePlain [] [a, b] =
      (if dedupKey a ∈ ([] : List PlanAction).map dedupKey then mergePlain [] [b]
       else mergePlain ([] ++ [a]) [b]) from rfl]
    rw [if_neg (by simp)]
    rw [show mergePlain ([] ++ [a]) [b] =
      (if dedupKey b ∈ (([] : List PlanAction) ++ [a]).map dedupKey
       then mergePlain ([] ++ [a]) [] else mergePlain (([] ++ [a]) ++ [b]) []) from rfl]
    rw [if_pos (by
      simp only [List.nil_append, List.map_cons, List.map_nil]
      exact List.mem_singleton.mpr (dedupKey_perm_eq hi hp hnd).symm)]
    rfl
  · intro pending newActs
    rw [mergeActions_eq_plain]
    exact mergePlain_split newActs pending

theorem C3_idempotent_merge_witness :
    mergeActions [⟨"nota_adicionar", [("texto", "ola")]⟩]
        [⟨"nota_adicionar", [("texto", "ola")]⟩] =
      [⟨"nota_adicionar", [("texto", "ola")]⟩] ∧
    mergeActions []
        [⟨"tarefa_criar", [("titulo", "x"), ("lead_ref_ou_id", "1")]⟩,
         ⟨"tarefa_criar", [("lead_ref_ou_id", "1"), ("titulo", "x")]⟩] =
      [⟨"tarefa_criar", [("titulo", "x"), ("lead_ref_ou_id", "1")]⟩] ∧
    (∃ sub,
      mergeActions [⟨"lead_criar", [("nome", "Maria")]⟩]
          [⟨"nota_adicionar", [("texto", "oi")]⟩] =
        [⟨"lead_criar", [("nome", "Maria")]⟩] ++ sub ∧
      sub.Sublist [⟨"nota_adicionar", [("texto", "oi")]⟩]) :=
  ⟨C3_idempotent_merge.1 _ _ (by decide),
   C3_idempotent_merge.2.1 _ _ (by decide) (by decide) (by decide),
   C3_idempotent_merge.2.2 _ _⟩

-- ===========================================================================
-- workflow.py: the plan normalizer.  json.loads is an external library
-- call and is modelled as an oracle jp (returning none when Python would
-- raise); the key-quoting regular expression substitution is the oracle
-- qk; the DOTALL search for an object-shaped actions substring is the
-- oracle snip; json.dumps is the oracle dumps.
-- ===========================================================================

/-- workflow.normalize_json_like: wrap an actions= prefix, wrap a bare
array, quote bareword keys (oracle qk), then turn single quotes into
double quotes. -/
def normalize_json_like (qk : String → String) (s : String) : String :=
  let t := trimS s
  let t := if startsWithS t "actions=" then
      "\x7b" ++ replaceFirstS t "actions=" "\"actions\":" ++ "\x7d"
    else t
  let t := if startsWithS t "[" && endsWithS t "]" then
      "\x7b\"actions\": " ++ t ++ "\x7d"
    else t
  mapApostToQuote (qk t)

/-- One action as returned by the plan parser: the raw intent value and
the raw list of slot blobs. -/
structure PlanRaw where
  intent : Json
  slots : List Json

/-- workflow.parse_plan_actions_from_text: strict parse first, then the
object-shaped snippet repaired, then the whole text repaired; a parse
failure at every stage, a non-object result, or a missing or non-list
actions field all produce the empty list.  Items that are not objects or
have a falsy intent are dropped; a slot field that is not a list becomes
a one-element dumps rendering when it is an object and the empty list
otherwise. -/
def plan_obj_of (jp : String → Option Json) (snip : String → Option String)
    (qk : String → String) (raw : String) : Option Json :=
  match jp raw with
  | some o => some o
  | none =>
    match snip raw with
    | some m => jp (normalize_json_like qk m)
    | none => jp (normalize_json_like qk raw)

def parse_plan_actions_from_text (jp : String → Option Json)
    (snip : String → Option String) (qk : String → String)
    (dumps : Json → String) (text : String) : List PlanRaw :=
  match plan_obj_of jp snip qk (trimS text) with
  | some (Json.obj fields) =>
    match jGet (Json.obj fields) "actions" with
    | some (Json.arr actions) =>
      actions.filterMap (fun it =>
        match it with
        | Json.obj itf =>
          let intent := jGetD (Json.obj itf) "intent"
          let slots : List Json :=
            match jGet (Json.obj itf) "slots" with
            | some (Json.arr xs) => xs
            | some (Json.obj fs) => [Json.str (dumps (Json.obj fs))]
            | some _ => []
            | none => []
          if jsonTruthy intent then some ⟨intent, slots⟩ else none
        | _ => none)
    | _ => []
  | _ => []

/-- workflow.slots_strings_to_dict: convert each slot blob separately.
A brace-wrapped blob is repaired (oracle qk, quote normalization) and
parsed (oracle jp); when that yields an object its items update the
output dict; otherwise a name=value blob sets one key; anything else
contributes nothing.  Parsed values are stored through their textual
rendering. -/
def slots_strings_to_dict (jp : String → Option Json) (qk : String → String)
    (blobs : List Json) : Slots :=
  blobs.foldl (fun out j =>
    match j with
    | Json.str s =>
      let txt := trimS s
      let objFields : Option (List (String × Json)) :=
        if startsWithS txt "\x7b" && endsWithS txt "\x7d" then
          match jp (mapApostToQuote (qk txt)) with
          | some (Json.obj fs) => some fs
          | _ => none
        else none
      match objFields with
      | some fs => fs.foldl (fun o kv => dictSet o kv.1 (jsonToStr kv.2)) out
      | none =>
        if txt.toList.contains '=' then
          match splitAtChar '=' txt.toList with
          | some (k, v) =>
            dictSet out (trimS (String.mk k)) (trimS (String.mk v))
          | none => out
        else out
    | _ => out) []

/-- C6: plan normalization is total.  The parser is a total function into
action lists, so no input can raise; whenever strict parsing fails and
the repaired snippet (or, absent a snippet, the repaired whole text)
also fails to parse, the result is the empty list; and a slot blob that
neither parses as an object after repair nor contains a key=value
separator yields the empty slot mapping instead of aborting. -/
theorem C6_plan_normalization_total :
    (∀ (jp : String → Option Json) (snip : String → Option String)
       (qk : String → String) (dumps : Json → String) (text : String),
       jp (trimS text) = none →
       (∀ m, snip (trimS text) = some m → jp (normalize_json_like qk m) = none) →
       (snip (trimS text) = none →
          jp (normalize_json_like qk (trimS text)) = none) →
       parse_plan_actions_from_text jp snip qk dumps text = []) ∧
    (∀ (jp : String → Option Json) (qk : String → String) (s : String),
       (∀ fs, jp (mapApostToQuote (qk (trimS s))) ≠ some (Json.obj fs)) →
       (trimS s).toList.contains '=' = false →
       slots_strings_to_dict jp qk [Json.str s] = []) := by
  constructor
  · intro jp snip qk dumps text h1 h2 h3
    have hobj : plan_obj_of jp snip qk (trimS text) = none := by
      unfold plan_obj_of
      rw [h1]
      cases hsnip : snip (trimS text) with
      | some m => exact h2 m hsnip
      | none => exact h3 hsnip
    unfold parse_plan_actions_from_text
    rw [hobj]
  · intro jp qk s hobj heq
    have hnm : ¬ ('=' ∈ (trimS s).data) := by simpa using heq
    unfold slots_strings_to_dict
    simp only [List.foldl_cons, List.foldl_nil]
    cases hj : jp (mapApostToQuote (qk (trimS s))) with
    | none => simp [hnm]
    | some j =>
      cases j with
      | obj fs => exact absurd hj (hobj fs)
      | null => simp [hnm]
      | bool b => simp [hnm]
      | num lit => simp [hnm]
      | str t => simp [hnm]
      | arr xs => simp [hnm]

theorem C6_plan_normalization_total_witness :
    parse_plan_actions_from_text (fun _ => none) (fun _ => none) id jsonToStr
      "totally broken planner output ]][" = [] ∧
    slots_strings_to_dict (fun _ => none) id [Json.str "\x7bbroken blob"] = [] := by
  constructor
  · exact C6_plan_normalization_total.1 (fun _ => none) (fun _ => none) id jsonToStr
      "totally broken planner output ]][" rfl (fun m h => by cases h) (fun _ => rfl)
  · exact C6_plan_normalization_total.2 (fun _ => none) id "\x7bbroken blob"
      (fun fs h => by cases h) (by decide)

-- ===========================================================================
-- workflow.prepare_plan: plan the turn, normalize and merge the actions,
-- and promote a queued lead_criar when the active intent needs a lead.
-- The planner LLM is the oracle plannerOut (none models a raised
-- exception, in which case the whole planning try-block is skipped and
-- the queue keeps its previous content).
-- ===========================================================================

/-- One action of the planner output as consumed by prepare_plan (the
intent string plus the raw slot blobs). -/
structure PlannedAction where
  intent : String
  rawSlots : List Json

/-- The per-action normalization both planning passes share: skip an
action repeating the truthy primary intent; skip lead_criar when a lead
is already resolved; convert the slot blobs; default the proposal
currency; inject the resolved lead reference when required and absent. -/
def planned_to_action (jp : String → Option Json) (qk : String → String)
    (primary : String) (leadAtual : Option LeadCtx) (a : PlannedAction) :
    Option PlanAction :=
  if !(primary = "") && decide (a.intent = primary) then none
  else if a.intent = "lead_criar" && leadResolvedB leadAtual then none
  else
    let s0 := slots_strings_to_dict jp qk a.rawSlots
    let s1 := if a.intent = "proposta_rascunhar" && !(containsKey s0 "moeda") then
        dictSet s0 "moeda" "BRL"
      else s0
    let s2 := if a.intent ∈ INTENTS_REQUIRING_LEAD && !(slotTruthy s1 "lead_ref_ou_id")
        && leadResolvedB leadAtual then
        dictSet s1 "lead_ref_ou_id" (leadIdOf leadAtual)
      else s1
    some ⟨a.intent, s2⟩

/-- The queue prepare_plan ends up with after planning and merging
(the original queue when the planner raised). -/
def prepare_plan_merged (jp : String → Option Json) (qk : String → String)
    (plannerOut : Option (List PlannedAction)) (st : GState) : List PlanAction :=
  match plannerOut with
  | none => st.ctx.pendingActions
  | some acts =>
    mergeActions st.ctx.pendingActions
      (acts.filterMap (planned_to_action jp qk st.intent st.leadAtual))

/-- Removal of the first lead_criar action of the queue, keeping the
order of the rest (the pending.pop(i) of prepare_plan). -/
def extract_first_lead_criar : List PlanAction → Option (PlanAction × List PlanAction)
  | [] => none
  | a :: rest =>
    if a.intent = "lead_criar" then some (a, rest)
    else
      match extract_first_lead_criar rest with
      | some (b, l) => some (b, a :: l)
      | none => none

/-- workflow.prepare_plan. -/
def prepare_plan (jp : String → Option Json) (qk : String → String)
    (plannerOut : Option (List PlannedAction)) (st : GState) : GState :=
  let merged := prepare_plan_merged jp qk plannerOut st
  let ctx1 := if merged.isEmpty then st.ctx else { st.ctx with pendingActions := merged }
  let needsLead := st.intent ∈ INTENTS_REQUIRING_LEAD
    && !(slotTruthy st.slots "lead_ref_ou_id" || leadResolvedB st.leadAtual)
  if needsLead && !merged.isEmpty then
    match extract_first_lead_criar merged with
    | some (act, rest) =>
      { st with ctx := { ctx1 with pendingActions := rest },
                intent := "lead_criar", slots := act.slots }
    | none => { st with ctx := ctx1 }
  else { st with ctx := ctx1 }

theorem extract_first_lead_criar_split :
    ∀ (l1 : List PlanAction) (a : PlanAction) (l2 : List PlanAction),
      a.intent = "lead_criar" → (∀ b ∈ l1, b.intent ≠ "lead_criar") →
      extract_first_lead_criar (l1 ++ a :: l2) = some (a, l1 ++ l2) := by
  intro l1
  induction l1 with
  | nil =>
    intro a l2 ha _
    unfold extract_first_lead_criar
    simp only [List.nil_append]
    rw [if_pos ha]
  | cons b t ih =>
    intro a l2 ha hnone
    have hb : b.intent ≠ "lead_criar" := hnone b (List.mem_cons_self b t)
    unfold extract_first_lead_criar
    simp only [List.cons_append]
    rw [if_neg hb, ih a l2 ha (fun c hc => hnone c (List.mem_cons_of_mem b hc))]

/-- C1: when the active intent requires a lead reference, the reference
slot is not truthy, no lead is resolved, and the freshly merged queue
splits around its first lead_criar action, prepare_plan removes exactly
that action from the queue and returns it as the new active intent with
its slots as the active slots. -/
theorem C1_prerequisite_promotion (jp : String → Option Json) (qk : String → String)
    (plannerOut : Option (List PlannedAction)) (st : GState)
    (l1 : List PlanAction) (a : PlanAction) (l2 : List PlanAction)
    (hreq : st.intent ∈ INTENTS_REQUIRING_LEAD)
    (hslot : slotTruthy st.slots "lead_ref_ou_id" = false)
    (hlead : leadResolvedB st.leadAtual = false)
    (hmerged : prepare_plan_merged jp qk plannerOut st = l1 ++ a :: l2)
    (ha : a.intent = "lead_criar")
    (hfirst : ∀ b ∈ l1, b.intent ≠ "lead_criar") :
    prepare_plan jp qk plannerOut st =
      { st with
        ctx := { st.ctx with pendingActions := l1 ++ l2 },
        intent := "lead_criar",
        slots := a.slots } := by
  unfold prepare_plan
  rw [hmerged]
  have hne : ((l1 ++ a :: l2).isEmpty) = false := by
    cases l1 <;> rfl
  simp only []
  rw [extract_first_lead_criar_split l1 a l2 ha hfirst, hne, hslot, hlead]
  simp [hreq]

theorem C1_prerequisite_promotion_witness :
    prepare_plan (fun _ => none) id none
      { messages := [], intent := "nota_adicionar", slots := [("texto", "oi")],
        leadAtual := none, errors := [], toolResult := none,
        ctx := { pendingActions := [⟨"lead_criar", [("nome", "Maria")]⟩] } } =
      { messages := [], intent := "lead_criar", slots := [("nome", "Maria")],
        leadAtual := none, errors := [], toolResult := none,
        ctx := { pendingActions := [] } } := by
  have h := C1_prerequisite_promotion (fun _ => none) id none
    { messages := [], intent := "nota_adicionar", slots := [("texto", "oi")],
      leadAtual := none, errors := [], toolResult := none,
      ctx := { pendingActions := [⟨"lead_criar", [("nome", "Maria")]⟩] } }
    [] ⟨"lead_criar", [("nome", "Maria")]⟩ []
    (by decide) (by decide) (by decide) rfl rfl (by simp)
  exact h

-- ===========================================================================
-- workflow.execute_pending.
-- ===========================================================================

/-- workflow.execute_pending: pop the head of the queue, promote it to the
active intent and slots, and inject the resolved lead reference when the
popped slots lack a truthy one. -/
def execute_pending (st : GState) : GState :=
  match st.ctx.pendingActions with
  | [] => st
  | action :: rest =>
    let actSlots := action.slots
    let actSlots := if !(slotTruthy actSlots "lead_ref_ou_id")
        && leadResolvedB st.leadAtual then
        dictSet actSlots "lead_ref_ou_id" (leadIdOf st.leadAtual)
      else actSlots
    { st with ctx := { st.ctx with pendingActions := rest },
              intent := action.intent, slots := actSlots }

/-- C9: on an empty queue execute_pending changes nothing; otherwise it
pops exactly the head (strict FIFO, the tail is kept in order), makes its
kind and slots the active intent and slots, and injects the resolved lead
identifier into the lead-reference slot when that slot is not set. -/
theorem C9_execute_pending_contract (st : GState) :
    (st.ctx.pendingActions = [] → execute_pending st = st) ∧
    (∀ a rest, st.ctx.pendingActions = a :: rest →
      (execute_pending st).ctx.pendingActions = rest ∧
      (execute_pending st).intent = a.intent ∧
      (slotTruthy a.slots "lead_ref_ou_id" = true →
        (execute_pending st).slots = a.slots) ∧
      (slotTruthy a.slots "lead_ref_ou_id" = false →
        leadResolvedB st.leadAtual = true →
        (execute_pending st).slots =
          dictSet a.slots "lead_ref_ou_id" (leadIdOf st.leadAtual))) := by
  constructor
  · intro h
    unfold execute_pending
    rw [h]
  · intro a rest h
    unfold execute_pending
    rw [h]
    refine ⟨rfl, rfl, ?_, ?_⟩
    · intro ht
      simp only [ht]
      rfl
    · intro ht hl
      simp only [ht, hl]
      rfl

theorem C9_execute_pending_contract_witness :
    execute_pending
        { messages := [], intent := "x", slots := [], leadAtual := none,
          errors := [], toolResult := none, ctx := { pendingActions := [] } } =
      { messages := [], intent := "x", slots := [], leadAtual := none,
        errors := [], toolResult := none, ctx := { pendingActions := [] } } ∧
    (execute_pending
        { messages := [], intent := "x", slots := [],
          leadAtual := some ⟨"42", "Ana", "", ""⟩, errors := [], toolResult := none,
          ctx := { pendingActions :=
            [⟨"nota_adicionar", [("texto", "oi")]⟩,
             ⟨"tarefa_criar", [("titulo", "t")]⟩] } }).ctx.pendingActions =
      [⟨"tarefa_criar", [("titulo", "t")]⟩] ∧
    (execute_pending
        { messages := [], intent := "x", slots := [],
          leadAtual := some ⟨"42", "Ana", "", ""⟩, errors := [], toolResult := none,
          ctx := { pendingActions :=
            [⟨"nota_adicionar", [("texto", "oi")]⟩,
             ⟨"tarefa_criar", [("titulo", "t")]⟩] } }).slots =
      [("texto", "oi"), ("lead_ref_ou_id", "42")] := by
  refine ⟨(C9_execute_pending_contract
      { messages := [], intent := "x", slots := [], leadAtual := none,
        errors := [], toolResult := none,
        ctx := { pendingActions := [] } }).1 rfl, ?_, ?_⟩
  · exact ((C9_execute_pending_contract
      { messages := [], intent := "x", slots := [],
        leadAtual := some ⟨"42", "Ana", "", ""⟩, errors := [], toolResult := none,
        ctx := { pendingActions :=
          [⟨"nota_adicionar", [("texto", "oi")]⟩,
           ⟨"tarefa_criar", [("titulo", "t")]⟩] } }).2
      (⟨"nota_adicionar", [("texto", "oi")]⟩ : PlanAction)
      [⟨"tarefa_criar", [("titulo", "t")]⟩] rfl).1
  · exact ((C9_execute_pending_contract
      { messages := [], intent := "x", slots := [],
        leadAtual := some ⟨"42", "Ana", "", ""⟩, errors := [], toolResult := none,
        ctx := { pendingActions :=
          [⟨"nota_adicionar", [("texto", "oi")]⟩,
           ⟨"tarefa_criar", [("titulo", "t")]⟩] } }).2
      (⟨"nota_adicionar", [("texto", "oi")]⟩ : PlanAction)
      [⟨"tarefa_criar", [("titulo", "t")]⟩] rfl).2.2.2 (by decide) (by decide)

-- ===========================================================================
-- tools.py: the lead resolution tools.  The database is an explicit list
-- of lead rows; the list order stands for the criado_em desc order the
-- fuzzy-search query returns.
-- ===========================================================================

structure LeadRow where
  id : String
  nome : String
  email : String
  telefone : String
  empresa : String
  statusCodigo : String
deriving DecidableEq, Repr

structure Db where
  leads : List LeadRow
deriving DecidableEq, Repr

/-- tools.normalize_phone. -/
def normalize_phone (s : String) : String :=
  String.mk (s.toList.filter Char.isDigit)

/-- tools.is_uuid: 36 characters of the class [0-9a-fA-F-] (the input is
already stripped where this matters). -/
def is_uuid (s : String) : Bool :=
  s.toList.length = 36 && s.toList.all (fun c => hexChar c || c = '-')

/-- tools.resolve_lead_id_by_ref: uuid lookup, then case-insensitive email
lookup, then digit-normalized phone lookup, then the fuzzy name/company
substring search (first five rows); exactly one fuzzy row resolves,
anything else returns the rows as disambiguation matches. -/
def resolve_lead_id_by_ref (db : Db) (ref : String) :
    Option String × List MatchRow :=
  if ref = "" then (none, [])
  else
    let ref := trimS ref
    if is_uuid ref then
      match db.leads.find? (fun r => decide (r.id = ref)) with
      | some r => (some r.id, [])
      | none => (none, [])
    else if ref.toList.contains '@' then
      match db.leads.find? (fun r => decide (lowerS r.email = lowerS ref)) with
      | some r => (some r.id, [])
      | none => (none, [])
    else
      let digits := normalize_phone ref
      if 8 ≤ digits.toList.length then
        match db.leads.find? (fun r => decide (normalize_phone r.telefone = digits)) with
        | some r => (some r.id, [])
        | none => (none, [])
      else
        let rows := (db.leads.filter (fun r =>
          containsSubS (lowerS r.nome) (lowerS ref)
            || containsSubS (lowerS r.empresa) (lowerS ref))).take 5
        match rows with
        | [r] => (some r.id, [])
        | rs => (none, rs.map (fun r => ⟨r.id, r.nome, r.email, r.empresa⟩))

/-- Result envelope of the get_lead tool. -/
inductive LeadResp where
  | found (row : LeadRow)
  | ambiguous (ms : List MatchRow)
  | notFound
deriving DecidableEq, Repr

/-- tools.get_lead (a truthy resolved id is fetched again by id; an empty
resolved id is falsy in Python and falls through to the match check). -/
def get_lead (db : Db) (ref : String) : LeadResp :=
  match resolve_lead_id_by_ref db ref with
  | (some lid, ms) =>
    if lid = "" then
      if ms.isEmpty then LeadResp.notFound else LeadResp.ambiguous ms
    else
      match db.leads.find? (fun r => decide (r.id = lid)) with
      | some row => LeadResp.found row
      | none => LeadResp.notFound
  | (none, ms) =>
    if ms.isEmpty then LeadResp.notFound else LeadResp.ambiguous ms

/-- Result envelope of the resolve_lead tool. -/
inductive ResolveResp where
  | resolved (leadId : String)
  | ambiguous (ms : List MatchRow)
  | notFound
deriving DecidableEq, Repr

/-- tools.resolve_lead (the tool; the graph node of the same name is
resolve_lead below). -/
def resolve_lead_tool (db : Db) (ref : String) : ResolveResp :=
  match resolve_lead_id_by_ref db ref with
  | (some lid, ms) =>
    if lid = "" then
      if ms.isEmpty then ResolveResp.notFound else ResolveResp.ambiguous ms
    else ResolveResp.resolved lid
  | (none, ms) =>
    if ms.isEmpty then ResolveResp.notFound else ResolveResp.ambiguous ms

/-- helpers.lead_context_from_result (for get_lead results): an error
yields none, and so does a falsy lead id. -/
def lead_context_from_result : LeadResp → Option LeadCtx
  | LeadResp.found row =>
    if row.id = "" then none
    else some ⟨row.id, row.nome, row.email, row.empresa⟩
  | _ => none

/-- helpers.get_lead_context. -/
def get_lead_context (db : Db) (ref : String) : Option LeadCtx :=
  if ref = "" then none
  else lead_context_from_result (get_lead db ref)

-- ===========================================================================
-- workflow.router_node and workflow.route_intent.
-- ===========================================================================

/-- sorted(set(missing)): deduplicate then sort the slot names. -/
def sortedDedupStr (l : List String) : List String :=
  List.insertionSort (fun a b : String => listLeB a.toList b.toList = true) l.dedup

/-- The blocking part of router_node: on missing slots record them
(sorted, deduplicated), block, and request lead resolution when the lead
reference is among them and no resolution was attempted; on nothing
missing clear all three flags. -/
def router_block_ctx (intent : String) (missing : List String) (ctx : Ctx) : Ctx :=
  if missing.isEmpty then
    { ctx with routerMissing := [], routerBlocked := false,
               needLeadResolution := false }
  else
    let c := { ctx with routerMissing := sortedDedupStr missing,
                        routerBlocked := true }
    if intent ∈ INTENTS_REQUIRING_LEAD && missing.contains "lead_ref_ou_id"
        && !(c.leadResolutionAttempted) then
      { c with needLeadResolution := true }
    else c

/-- The final check of router_node: a textual lead reference with no
confirmed lead requests resolution when none was attempted. -/
def router_textual_ctx (intent : String) (slots : Slots)
    (leadAtual : Option LeadCtx) (ctx : Ctx) : Ctx :=
  if intent ∈ INTENTS_REQUIRING_LEAD && slotTruthy slots "lead_ref_ou_id"
      && !(leadResolvedB leadAtual) && !(ctx.leadResolutionAttempted) then
    { ctx with needLeadResolution := true }
  else ctx

/-- workflow.router_node: collect missing required slots (the lead
reference counts as present when a lead is resolved), inject the resolved
lead id into the reference slot, set the blocking flags, and request lead
resolution when the reference is missing, or textual and unconfirmed,
provided no resolution was attempted this turn. -/
def router_node (st : GState) : GState :=
  let intent := st.intent
  let slots0 := st.slots
  let missing0 := (REQUIRED_SLOTS intent).filter (fun name =>
    if name = "lead_ref_ou_id"
        && (slotTruthy slots0 name || leadResolvedB st.leadAtual) then false
    else !(slotTruthy slots0 name))
  let injected := intent ∈ INTENTS_REQUIRING_LEAD
    && !(slotTruthy slots0 "lead_ref_ou_id")
  let slots := if injected && leadResolvedB st.leadAtual then
      dictSet slots0 "lead_ref_ou_id" (leadIdOf st.leadAtual)
    else slots0
  let missing := if injected && !(leadResolvedB st.leadAtual) then
      missing0 ++ ["lead_ref_ou_id"]
    else missing0
  let errors := if missing.isEmpty then st.errors
    else st.errors ++
      ["Para " ++ intent ++ " preciso de: "
        ++ joinWith ", " (sortedDedupStr missing) ++ "."]
  let ctx := router_textual_ctx intent slots st.leadAtual
    (router_block_ctx intent missing st.ctx)
  { st with slots := slots, errors := errors, ctx := ctx }

/-- workflow.route_intent. -/
def route_intent (st : GState) : String :=
  if st.ctx.needLeadResolution then "resolve_lead"
  else if st.intent ∈ LEAD_INTENTS then "handle_leads"
  else if st.intent ∈ NOTE_INTENTS then "handle_notes"
  else if st.intent ∈ TASK_INTENTS then "handle_tasks"
  else if st.intent ∈ PROPOSAL_INTENTS then "handle_proposals"
  else "respond_final"

-- ===========================================================================
-- workflow.resolve_lead (the graph node), written as its fall-through
-- stages.
-- ===========================================================================

/-- Stage 5 of resolve_lead: unresolved, keep the textual slot, clear the
flags and do not block. -/
def resolve_lead_step5 (slots : Slots) (ctx : Ctx) (st : GState) : GState :=
  { st with slots := slots,
            ctx := { ctx with needLeadResolution := false, routerBlocked := false } }

/-- Stage 4 of resolve_lead with the search term already assembled. -/
def resolve_lead_step4_with (db : Db) (term : String) (slots : Slots)
    (ctx : Ctx) (st : GState) : GState :=
  if term = "" then resolve_lead_step5 slots ctx st
  else
    match resolve_lead_tool db term with
    | ResolveResp.resolved lid =>
      if lid = "" then resolve_lead_step5 slots ctx st
      else
        match get_lead_context db lid with
        | some lc =>
          { st with slots := dictSet slots "lead_ref_ou_id" lid,
                    leadAtual := some lc,
                    ctx := { ctx with needLeadResolution := false,
                                      routerBlocked := false } }
        | none => resolve_lead_step5 slots ctx st
    | ResolveResp.ambiguous ms =>
      { st with ctx := { ctx with leadMatches := some ms,
                                  needLeadResolution := false,
                                  routerBlocked := true } }
    | ResolveResp.notFound => resolve_lead_step5 slots ctx st

/-- Stage 4 of resolve_lead: fuzzy search from the auxiliary nome/empresa
slots through the resolve_lead tool. -/
def resolve_lead_step4 (db : Db) (slots : Slots) (ctx : Ctx) (st : GState) : GState :=
  let parts := (["nome", "empresa"]).filterMap (fun k =>
    match lookupSlot slots k with
    | some v => if v = "" then none else some v
    | none => none)
  resolve_lead_step4_with db (trimS (joinWith " " parts)) slots ctx st

/-- Stage 3 of resolve_lead: a reference extracted from the latest message
text; an ambiguous result here falls through to stage 4 (the code only
inspects the lead context). -/
def resolve_lead_step3 (db : Db) (slots : Slots) (ctx : Ctx) (st : GState) : GState :=
  let text := match st.messages.getLast? with
    | some m => extractTextContent m
    | none => ""
  match extract_ref_from_text text with
  | some refd =>
    match lead_context_from_result (get_lead db refd) with
    | some lc =>
      { st with slots := dictSet slots "lead_ref_ou_id" lc.leadId,
                leadAtual := some lc,
                ctx := { ctx with needLeadResolution := false,
                                  routerBlocked := false } }
    | none => resolve_lead_step4 db slots ctx st
  | none => resolve_lead_step4 db slots ctx st

/-- workflow.resolve_lead: mark the attempt, short-circuit on an already
confirmed lead, then try the explicit reference slot (blocking on an
ambiguous match), the message text, and the auxiliary slots. -/
def resolve_lead (db : Db) (st : GState) : GState :=
  let slots := st.slots
  let ctx := { st.ctx with leadResolutionAttempted := true }
  if leadResolvedB st.leadAtual then
    { st with ctx := { ctx with needLeadResolution := false, routerBlocked := false } }
  else if slotTruthy slots "lead_ref_ou_id" then
    let refv := (lookupSlot slots "lead_ref_ou_id").getD ""
    let resp := get_lead db refv
    match lead_context_from_result resp with
    | some lc =>
      { st with slots := dictSet slots "lead_ref_ou_id" lc.leadId,
                leadAtual := some lc,
                ctx := { ctx with needLeadResolution := false,
                                  routerBlocked := false } }
    | none =>
      match resp with
      | LeadResp.ambiguous ms =>
        { st with ctx := { ctx with leadMatches := some ms,
                                    needLeadResolution := false,
                                    routerBlocked := true } }
      | _ => resolve_lead_step3 db slots ctx st
  else resolve_lead_step3 db slots ctx st

theorem resolve_lead_step5_flags (slots : Slots) (ctx : Ctx) (st : GState) :
    (resolve_lead_step5 slots ctx st).ctx.leadResolutionAttempted
        = ctx.leadResolutionAttempted ∧
    (resolve_lead_step5 slots ctx st).ctx.needLeadResolution = false :=
  ⟨rfl, rfl⟩

theorem resolve_lead_step4_with_flags (db : Db) (term : String) (slots : Slots)
    (ctx : Ctx) (st : GState) :
    (resolve_lead_step4_with db term slots ctx st).ctx.leadResolutionAttempted
        = ctx.leadResolutionAttempted ∧
    (resolve_lead_step4_with db term slots ctx st).ctx.needLeadResolution = false := by
  unfold resolve_lead_step4_with resolve_lead_step5
  repeat' split
  all_goals exact ⟨rfl, rfl⟩

theorem resolve_lead_step4_flags (db : Db) (slots : Slots) (ctx : Ctx) (st : GState) :
    (resolve_lead_step4 db slots ctx st).ctx.leadResolutionAttempted
        = ctx.leadResolutionAttempted ∧
    (resolve_lead_step4 db slots ctx st).ctx.needLeadResolution = false :=
  resolve_lead_step4_with_flags db _ slots ctx st

theorem resolve_lead_step3_flags (db : Db) (slots : Slots) (ctx : Ctx) (st : GState) :
    (resolve_lead_step3 db slots ctx st).ctx.leadResolutionAttempted
        = ctx.leadResolutionAttempted ∧
    (resolve_lead_step3 db slots ctx st).ctx.needLeadResolution = false := by
  unfold resolve_lead_step3
  simp only []
  repeat' split
  all_goals first
  | exact ⟨rfl, rfl⟩
  | exact resolve_lead_step4_flags db slots ctx st

/-- C2: resolve_lead always sets the per-turn resolution-attempt flag and
clears the resolution request; once the flag is set (and the request
clear) router_node never raises the request again and never clears the
flag; and the conditional router edge only enters resolve_lead when the
request is set — so the automatic resolution step runs at most once per
turn. -/
theorem C2_resolution_loop_guard :
    (∀ (db : Db) (st : GState),
       (resolve_lead db st).ctx.leadResolutionAttempted = true ∧
       (resolve_lead db st).ctx.needLeadResolution = false) ∧
    (∀ st : GState, st.ctx.leadResolutionAttempted = true →
       st.ctx.needLeadResolution = false →
       (router_node st).ctx.needLeadResolution = false ∧
       (router_node st).ctx.leadResolutionAttempted = true) ∧
    (∀ st : GState, st.ctx.needLeadResolution = false →
       route_intent st ≠ "resolve_lead") := by
  refine ⟨?_, ?_, ?_⟩
  · intro db st
    unfold resolve_lead
    simp only []
    repeat' split
    all_goals first
    | exact ⟨rfl, rfl⟩
    | exact ⟨(resolve_lead_step3_flags db st.slots _ st).1.trans rfl,
        (resolve_lead_step3_flags db st.slots _ st).2⟩
  · intro st h1 h2
    have hblock : ∀ (intent : String) (missing : List String),
        (router_block_ctx intent missing st.ctx).leadResolutionAttempted = true ∧
        (router_block_ctx intent missing st.ctx).needLeadResolution = false := by
      intro intent missing
      unfold router_block_ctx
      simp only []
      split
      · exact ⟨h1, rfl⟩
      · split
        next hcond => exfalso; simp [h1] at hcond
        next => exact ⟨h1, h2⟩
    have htext : ∀ (intent : String) (slots : Slots) (la : Option LeadCtx) (c : Ctx),
        c.leadResolutionAttempted = true →
        router_textual_ctx intent slots la c = c := by
      intro intent slots la c hc
      unfold router_textual_ctx
      split
      next hcond => exfalso; simp [hc] at hcond
      next => rfl
    have hmain : (router_node st).ctx =
        router_textual_ctx st.intent (router_node st).slots st.leadAtual
          (router_block_ctx st.intent
            (if (st.intent ∈ INTENTS_REQUIRING_LEAD
                  && !(slotTruthy st.slots "lead_ref_ou_id"))
                && !(leadResolvedB st.leadAtual) then
              ((REQUIRED_SLOTS st.intent).filter (fun name =>
                if name = "lead_ref_ou_id"
                    && (slotTruthy st.slots name || leadResolvedB st.leadAtual)
                then false
                else !(slotTruthy st.slots name))) ++ ["lead_ref_ou_id"]
             else
              (REQUIRED_SLOTS st.intent).filter (fun name =>
                if name = "lead_ref_ou_id"
                    && (slotTruthy st.slots name || leadResolvedB st.leadAtual)
                then false
                else !(slotTruthy st.slots name))) st.ctx) := rfl
    rw [hmain, htext _ _ _ _ (hblock _ _).1]
    exact ⟨(hblock _ _).2, (hblock _ _).1⟩
  · intro st h
    unfold route_intent
    rw [h]
    simp only [Bool.false_eq_true, if_false]
    repeat' split
    all_goals decide

theorem C2_resolution_loop_guard_witness :
    (resolve_lead ⟨[]⟩
        { messages := [], intent := "nota_adicionar", slots := [],
          leadAtual := none, errors := [], toolResult := none,
          ctx := {} }).ctx.leadResolutionAttempted = true ∧
    (router_node
        { messages := [], intent := "nota_adicionar", slots := [],
          leadAtual := none, errors := [], toolResult := none,
          ctx := { leadResolutionAttempted := true } }).ctx.needLeadResolution
      = false ∧
    route_intent
        { messages := [], intent := "nota_adicionar", slots := [],
          leadAtual := none, errors := [], toolResult := none,
          ctx := { leadResolutionAttempted := true } } ≠ "resolve_lead" :=
  ⟨(C2_resolution_loop_guard.1 ⟨[]⟩
      { messages := [], intent := "nota_adicionar", slots := [],
        leadAtual := none, errors := [], toolResult := none, ctx := {} }).1,
   (C2_resolution_loop_guard.2.1
      { messages := [], intent := "nota_adicionar", slots := [],
        leadAtual := none, errors := [], toolResult := none,
        ctx := { leadResolutionAttempted := true } } rfl rfl).1,
   C2_resolution_loop_guard.2.2
      { messages := [], intent := "nota_adicionar", slots := [],
        leadAtual := none, errors := [], toolResult := none,
        ctx := { leadResolutionAttempted := true } } rfl⟩

theorem two_le_map_of_not_single (rows : List LeadRow) (f : LeadRow → MatchRow)
    (hsing : ∀ r, rows = [r] → False) (hne : rows.map f ≠ []) :
    2 ≤ (rows.map f).length := by
  cases rows with
  | nil => exact absurd rfl hne
  | cons a t =>
    cases t with
    | nil => exact absurd rfl (hsing a)
    | cons b t2 => simp

theorem resolve_ref_matches_len (db : Db) (ref : String) (olid : Option String)
    (ms : List MatchRow) (hms : resolve_lead_id_by_ref db ref = (olid, ms))
    (hne : ms ≠ []) : 2 ≤ ms.length := by
  unfold resolve_lead_id_by_ref at hms
  simp only [] at hms
  repeat' split at hms
  all_goals try (injection hms with ho hm; subst hm; exact absurd rfl hne)
  next hsing =>
    injection hms with ho hm
    subst hm
    exact two_le_map_of_not_single _ _ hsing hne

theorem get_lead_ambiguous_len (db : Db) (ref : String) (ms : List MatchRow)
    (h : get_lead db ref = LeadResp.ambiguous ms) : 2 ≤ ms.length := by
  unfold get_lead at h
  split at h
  next lid ms2 heq =>
    split at h
    · split at h
      · cases h
      next hne =>
        cases h
        exact resolve_ref_matches_len db ref _ _ heq (by simpa using hne)
    · split at h <;> cases h
  next ms2 heq =>
    split at h
    · cases h
    next hne =>
      cases h
      exact resolve_ref_matches_len db ref _ _ heq (by simpa using hne)

theorem resolve_tool_ambiguous_len (db : Db) (ref : String) (ms : List MatchRow)
    (h : resolve_lead_tool db ref = ResolveResp.ambiguous ms) : 2 ≤ ms.length := by
  unfold resolve_lead_tool at h
  split at h
  next lid ms2 heq =>
    split at h
    · split at h
      · cases h
      next hne =>
        cases h
        exact resolve_ref_matches_len db ref _ _ heq (by simpa using hne)
    · cases h
  next ms2 heq =>
    split at h
    · cases h
    next hne =>
      cases h
      exact resolve_ref_matches_len db ref _ _ heq (by simpa using hne)

theorem resolve_lead_step4_with_matches (db : Db) (term : String) (slots : Slots)
    (ctx : Ctx) (st : GState) (h0 : ctx.leadMatches = none) :
    ∀ ms, (resolve_lead_step4_with db term slots ctx st).ctx.leadMatches = some ms →
      (resolve_lead_step4_with db term slots ctx st).ctx.routerBlocked = true ∧
      (resolve_lead_step4_with db term slots ctx st).leadAtual = st.leadAtual ∧
      (resolve_lead_step4_with db term slots ctx st).slots = st.slots ∧
      2 ≤ ms.length := by
  intro ms hms
  unfold resolve_lead_step4_with at hms ⊢
  by_cases hterm : term = ""
  · rw [if_pos hterm] at hms
    exact absurd hms (by simp [resolve_lead_step5, h0])
  · rw [if_neg hterm] at hms ⊢
    cases hres : resolve_lead_tool db term with
    | resolved lid =>
      try rw [hres] at hms
      try simp only [] at hms
      by_cases hlid : lid = ""
      · rw [if_pos hlid] at hms
        exact absurd hms (by simp [resolve_lead_step5, h0])
      · rw [if_neg hlid] at hms
        cases hglc : get_lead_context db lid with
        | some lc =>
          try rw [hglc] at hms
          try simp only [] at hms
          exact absurd hms (by simp [h0])
        | none =>
          try rw [hglc] at hms
          try simp only [] at hms
          exact absurd hms (by simp [resolve_lead_step5, h0])
    | ambiguous ms2 =>
      try rw [hres] at hms
      try simp only [] at hms
      have hms2 : ms2 = ms := by simpa using hms
      subst hms2
      exact ⟨rfl, rfl, rfl, resolve_tool_ambiguous_len db term ms2 hres⟩
    | notFound =>
      try rw [hres] at hms
      try simp only [] at hms
      exact absurd hms (by simp [resolve_lead_step5, h0])

theorem resolve_lead_step4_matches (db : Db) (slots : Slots)
    (ctx : Ctx) (st : GState) (h0 : ctx.leadMatches = none) :
    ∀ ms, (resolve_lead_step4 db slots ctx st).ctx.leadMatches = some ms →
      (resolve_lead_step4 db slots ctx st).ctx.routerBlocked = true ∧
      (resolve_lead_step4 db slots ctx st).leadAtual = st.leadAtual ∧
      (resolve_lead_step4 db slots ctx st).slots = st.slots ∧
      2 ≤ ms.length :=
  resolve_lead_step4_with_matches db _ slots ctx st h0

theorem resolve_lead_step3_matches (db : Db) (slots : Slots)
    (ctx : Ctx) (st : GState) (h0 : ctx.leadMatches = none) :
    ∀ ms, (resolve_lead_step3 db slots ctx st).ctx.leadMatches = some ms →
      (resolve_lead_step3 db slots ctx st).ctx.routerBlocked = true ∧
      (resolve_lead_step3 db slots ctx st).leadAtual = st.leadAtual ∧
      (resolve_lead_step3 db slots ctx st).slots = st.slots ∧
      2 ≤ ms.length := by
  intro ms hms
  unfold resolve_lead_step3 at hms ⊢
  simp only [] at hms ⊢
  cases href : extract_ref_from_text (match st.messages.getLast? with
      | some m => extractTextContent m
      | none => "") with
  | some refd =>
    try rw [href] at hms
    try simp only [] at hms
    cases hlcr : lead_context_from_result (get_lead db refd) with
    | some lc =>
      try rw [hlcr] at hms
      try simp only [] at hms
      exact absurd hms (by simp [h0])
    | none =>
      try rw [hlcr] at hms
      try simp only [] at hms
      simp only []
      rw [hlcr]
      exact resolve_lead_step4_matches db slots ctx st h0 ms hms
  | none =>
    try rw [href] at hms
    try simp only [] at hms
    exact resolve_lead_step4_matches db slots ctx st h0 ms hms

/-- C5: whenever the resolution node ends up with candidate matches in the
context (it had none before), no entity was resolved: the lead context and
the slots are unchanged, the blocked flag is set, and the written
candidate list has at least two entries. -/
theorem C5_disambiguation (db : Db) (st : GState)
    (h0 : st.ctx.leadMatches = none) :
    ∀ ms, (resolve_lead db st).ctx.leadMatches = some ms →
      (resolve_lead db st).ctx.routerBlocked = true ∧
      (resolve_lead db st).leadAtual = st.leadAtual ∧
      (resolve_lead db st).slots = st.slots ∧
      2 ≤ ms.length := by
  intro ms hms
  unfold resolve_lead at hms ⊢
  simp only [] at hms ⊢
  by_cases hres0 : leadResolvedB st.leadAtual = true
  · rw [if_pos hres0] at hms
    exact absurd hms (by simp [h0])
  · rw [if_neg hres0] at hms ⊢
    by_cases htr : slotTruthy st.slots "lead_ref_ou_id" = true
    · rw [if_pos htr] at hms ⊢
      cases hlcr : lead_context_from_result
          (get_lead db ((lookupSlot st.slots "lead_ref_ou_id").getD "")) with
      | some lc =>
        try rw [hlcr] at hms
        try simp only [] at hms
        exact absurd hms (by simp [h0])
      | none =>
        try rw [hlcr] at hms
        try simp only [] at hms
        cases hgl : get_lead db ((lookupSlot st.slots "lead_ref_ou_id").getD "") with
        | found row =>
          try rw [hgl] at hms
          try simp only [] at hms
          exact resolve_lead_step3_matches db st.slots
            { st.ctx with leadResolutionAttempted := true } st h0 ms hms
        | ambiguous ms2 =>
          try rw [hgl] at hms
          try simp only [] at hms
          have hms2 : ms2 = ms := by simpa using hms
          subst hms2
          exact ⟨rfl, rfl, rfl, get_lead_ambiguous_len db _ ms2 hgl⟩
        | notFound =>
          try rw [hgl] at hms
          try simp only [] at hms
          exact resolve_lead_step3_matches db st.slots
            { st.ctx with leadResolutionAttempted := true } st h0 ms hms
    · rw [if_neg htr] at hms ⊢
      exact resolve_lead_step3_matches db st.slots
        { st.ctx with leadResolutionAttempted := true } st h0 ms hms

/-- A two-row database whose rows both match the fuzzy term acme. -/
def dbTwoAcme : Db :=
  ⟨[⟨"id1", "Acme Alpha", "a@x.com", "11111111", "Acme", "novo"⟩,
    ⟨"id2", "Acme Beta", "b@x.com", "22222222", "Acme", "novo"⟩]⟩

/-- A state whose reference slot holds the ambiguous textual term. -/
def stAcme : GState :=
  { messages := [], intent := "nota_adicionar",
    slots := [("lead_ref_ou_id", "acme"), ("texto", "oi")],
    leadAtual := none, errors := [], toolResult := none, ctx := {} }

theorem C5_disambiguation_witness :
    (resolve_lead dbTwoAcme stAcme).ctx.routerBlocked = true ∧
    (resolve_lead dbTwoAcme stAcme).leadAtual = stAcme.leadAtual ∧
    (resolve_lead dbTwoAcme stAcme).slots = stAcme.slots ∧
    2 ≤ ([⟨"id1", "Acme Alpha", "a@x.com", "Acme"⟩,
          ⟨"id2", "Acme Beta", "b@x.com", "Acme"⟩] : List MatchRow).length :=
  C5_disambiguation dbTwoAcme stAcme rfl
    [⟨"id1", "Acme Alpha", "a@x.com", "Acme"⟩,
     ⟨"id2", "Acme Beta", "b@x.com", "Acme"⟩] (by decide)

-- ===========================================================================
-- workflow.update_context: consolidate the lead from tool results and
-- messages, inject it into pending actions, and re-plan at most once.
-- ===========================================================================

def dataGet : List (String × String) → String → Option String
  | [], _ => none
  | (k1, v) :: rest, k => if k1 = k then some v else dataGet rest k

def dataTruthy (data : List (String × String)) (k : String) : Bool :=
  match dataGet data k with
  | some v => !(v = "")
  | none => false

/-- str() of a segment-data lookup (a missing key prints as None). -/
def dataStr (data : List (String × String)) (k : String) : String :=
  (dataGet data k).getD "None"

/-- The semantic dedup key of an already-recorded response segment
(update_context builds these from context.ai_responses). -/
def seg_key (seg : Seg) : Option String :=
  if seg.intent = "lead_criar" && dataTruthy seg.data "lead_id" then
    some ("lead:" ++ dataStr seg.data "lead_id")
  else if seg.intent = "proposta_rascunhar" && dataTruthy seg.data "proposta_id" then
    some ("draft:" ++ dataStr seg.data "proposta_id")
  else if seg.intent = "proposta_adicionar_item" && dataTruthy seg.data "proposta_id"
      && dataTruthy seg.data "item_id" then
    some ("item:" ++ dataStr seg.data "proposta_id" ++ ":" ++ dataStr seg.data "item_id")
  else if seg.intent = "proposta_calcular_totais" && dataTruthy seg.data "proposta_id" then
    some ("totals:" ++ dataStr seg.data "proposta_id" ++ ":"
      ++ dataStr seg.data "subtotal" ++ ":" ++ dataStr seg.data "total")
  else none

/-- Python test value is not None on a dict.get result. -/
def jNotNone : Option Json → Bool
  | some Json.null => false
  | some _ => true
  | none => false

/-- The per-tool segment pushes of the message scan, deduplicated by the
semantic keys collected so far. -/
def scan_tool_push (name : String) (d : Json) (acc : Ctx × List String) :
    Ctx × List String :=
  let ctx := acc.1
  let keys := acc.2
  if name = "create_lead" && jsonTruthy (jGetD d "lead_id") then
    let key := "lead:" ++ jsonToStrOpt (jGet d "lead_id")
    if keys.contains key then acc
    else (push_ai_response ctx "lead_criar"
        ("Lead criado (id: " ++ jsonToStrOpt (jGet d "lead_id") ++ ")") true
        [("lead_id", jsonToStrOpt (jGet d "lead_id"))], keys ++ [key])
  else if name = "draft_proposal" && jsonTruthy (jGetD d "proposta_id") then
    let key := "draft:" ++ jsonToStrOpt (jGet d "proposta_id")
    if keys.contains key then acc
    else (push_ai_response ctx "proposta_rascunhar"
        ("Proposta rascunhada (id: " ++ jsonToStrOpt (jGet d "proposta_id") ++ ")") true
        [("proposta_id", jsonToStrOpt (jGet d "proposta_id")),
         ("lead_id", jsonToStrOpt (jGet d "lead_id"))], keys ++ [key])
  else if name = "add_proposal_item" && jsonTruthy (jGetD d "proposta_id")
      && jsonTruthy (jGetD d "item_id") then
    let key := "item:" ++ jsonToStrOpt (jGet d "proposta_id") ++ ":"
      ++ jsonToStrOpt (jGet d "item_id")
    if keys.contains key then acc
    else (push_ai_response ctx "proposta_adicionar_item" "Item adicionado" true
        [("proposta_id", jsonToStrOpt (jGet d "proposta_id")),
         ("item_id", jsonToStrOpt (jGet d "item_id"))], keys ++ [key])
  else if name = "calculate_proposal_totals" && jNotNone (jGet d "proposta_id") then
    let key := "totals:" ++ jsonToStrOpt (jGet d "proposta_id") ++ ":"
      ++ jsonToStrOpt (jGet d "subtotal") ++ ":" ++ jsonToStrOpt (jGet d "total")
    if keys.contains key then acc
    else (push_ai_response ctx "proposta_calcular_totais"
        ("Totais atualizados: subtotal=" ++ jsonToStrOpt (jGet d "subtotal")
          ++ " total=" ++ jsonToStrOpt (jGet d "total")) true
        [("proposta_id", jsonToStrOpt (jGet d "proposta_id")),
         ("subtotal", jsonToStrOpt (jGet d "subtotal")),
         ("total", jsonToStrOpt (jGet d "total")),
         ("desconto_pct", jsonToStrOpt (jGet d "desconto_pct"))], keys ++ [key])
  else acc

/-- Python d = parsed.get("data") or empty dict. -/
def jDataOf (parsed : Json) : Json :=
  match jGet parsed "data" with
  | some dv => if jsonTruthy dv then dv else Json.obj []
  | none => Json.obj []

/-- One step of the reversed tool-message scan: consolidate the lead
(setting the slot default) and push didactic segments; messages whose
decoding failed, and non-dict payloads, contribute nothing. -/
def scan_msg (db : Db) (m : Msg)
    (acc : Option LeadCtx × Slots × Ctx × List String) :
    Option LeadCtx × Slots × Ctx × List String :=
  match m with
  | Msg.tool name _ (some (Json.obj fields)) =>
    let newLead := acc.1
    let slots := acc.2.1
    let ctx := acc.2.2.1
    let keys := acc.2.2.2
    let d := jDataOf (Json.obj fields)
    let leadRefJ := if jsonTruthy (jGetD d "lead_id") then jGetD d "lead_id"
      else jGetD d "lead_ref_ou_id"
    let nlsl : Option LeadCtx × Slots :=
      if jsonTruthy leadRefJ && newLead.isNone then
        match get_lead_context db (jsonToStr leadRefJ) with
        | some nl => (some nl, dictSetDefault slots "lead_ref_ou_id" nl.leadId)
        | none => (newLead, slots)
      else (newLead, slots)
    let ck := scan_tool_push name d (ctx, keys)
    (nlsl.1, nlsl.2, ck.1, ck.2)
  | _ => acc

/-- Phases 1 and 2 of update_context: the explicit tool result, then the
reversed message scan while no lead is consolidated. -/
def uc_scan (db : Db) (st : GState) : Option LeadCtx × Slots × Ctx :=
  let trData := match st.toolResult with
    | some j => jDataOf j
    | none => Json.obj []
  let primaryRef := if jsonTruthy (jGetD trData "lead_id") then jGetD trData "lead_id"
    else jGetD trData "lead_ref_ou_id"
  let newLead0 : Option LeadCtx := if jsonTruthy primaryRef then
      get_lead_context db (jsonToStr primaryRef)
    else none
  if newLead0.isNone then
    let keys0 := st.ctx.aiResponses.filterMap seg_key
    let r := st.messages.reverse.foldl (fun acc m => scan_msg db m acc)
      (newLead0, st.slots, st.ctx, keys0)
    (r.1, r.2.1, r.2.2.1)
  else (newLead0, st.slots, st.ctx)

/-- Phase 3.1 of update_context: inject the consolidated lead reference,
and the default currency, into the queued actions. -/
def uc_inject (newLead : Option LeadCtx) (pending : List PlanAction) :
    List PlanAction :=
  if newLead.isSome && !pending.isEmpty then
    pending.map (fun act =>
      let s := act.slots
      let s := if act.intent ∈ INTENTS_REQUIRING_LEAD && leadResolvedB newLead
          && !(slotTruthy s "lead_ref_ou_id") then
          dictSet s "lead_ref_ou_id" (leadIdOf newLead)
        else s
      let s := if act.intent = "proposta_rascunhar" && !(containsKey s "moeda") then
          dictSet s "moeda" "BRL"
        else s
      { act with slots := s })
  else pending

/-- Phase 4 of update_context: the bounded supplementary re-plan.  The
returned flag records that the planner collaborator was invoked; a raised
invocation (plannerOut none) leaves the context untouched because the
enclosing try swallows the exception before replanned is set. -/
def uc_replan (jp : String → Option Json) (qk : String → String)
    (plannerOut : Option (List PlannedAction)) (currentIntent : String)
    (leadCtx2 : Option LeadCtx) (ctx2 : Ctx) : Ctx × Bool :=
  if ctx2.pendingActions.isEmpty && !ctx2.replanned then
    match plannerOut with
    | none => (ctx2, true)
    | some acts =>
      let newActions := acts.filterMap
        (planned_to_action jp qk currentIntent leadCtx2)
      let executed := ctx2.aiResponses.filterMap (fun seg =>
        if seg.intent = "" then none else some seg.intent)
      let filtered := newActions.filter (fun a => !(executed.contains a.intent))
      ({ ctx2 with pendingActions := mergeActions ctx2.pendingActions filtered,
                   replanned := true }, true)
  else (ctx2, false)

/-- workflow.update_context.  The second component records whether the
supplementary planner invocation happened. -/
def update_context (db : Db) (jp : String → Option Json) (qk : String → String)
    (plannerOut : Option (List PlannedAction)) (st : GState) : GState × Bool :=
  let r := uc_scan db st
  let newLead1 := r.1
  let slots1 := r.2.1
  let ctx1 := r.2.2
  let newLead := if newLead1.isNone && slotTruthy slots1 "lead_ref_ou_id" then
      get_lead_context db ((lookupSlot slots1 "lead_ref_ou_id").getD "")
    else newLead1
  let pending1 := uc_inject newLead ctx1.pendingActions
  let ctx2 := { ctx1 with pendingActions := pending1 }
  let leadCtx2 := match newLead with
    | some nl => some nl
    | none => st.leadAtual
  let rp := uc_replan jp qk plannerOut st.intent leadCtx2 ctx2
  ({ st with slots := slots1, ctx := rp.1,
             leadAtual := match newLead with
               | some nl => some nl
               | none => st.leadAtual },
   rp.2)

theorem scan_tool_push_ctx (name : String) (d : Json) (acc : Ctx × List String) :
    (scan_tool_push name d acc).1.pendingActions = acc.1.pendingActions ∧
    (scan_tool_push name d acc).1.replanned = acc.1.replanned ∧
    ∃ suf, (scan_tool_push name d acc).1.aiResponses = acc.1.aiResponses ++ suf := by
  unfold scan_tool_push push_ai_response
  simp only []
  repeat' split
  all_goals first
  | exact ⟨rfl, rfl, _, rfl⟩
  | exact ⟨rfl, rfl, [], by simp⟩

theorem scan_msg_ctx (db : Db) (m : Msg)
    (acc : Option LeadCtx × Slots × Ctx × List String) :
    (scan_msg db m acc).2.2.1.pendingActions = acc.2.2.1.pendingActions ∧
    (scan_msg db m acc).2.2.1.replanned = acc.2.2.1.replanned ∧
    ∃ suf, (scan_msg db m acc).2.2.1.aiResponses = acc.2.2.1.aiResponses ++ suf := by
  cases m with
  | human t => exact ⟨rfl, rfl, [], by simp [scan_msg]⟩
  | ai t => exact ⟨rfl, rfl, [], by simp [scan_msg]⟩
  | tool name text parsed =>
    cases parsed with
    | none => exact ⟨rfl, rfl, [], by simp [scan_msg]⟩
    | some j =>
      cases j with
      | obj fields =>
        exact scan_tool_push_ctx name (jDataOf (Json.obj fields))
          (acc.2.2.1, acc.2.2.2)
      | null => exact ⟨rfl, rfl, [], by simp [scan_msg]⟩
      | bool b => exact ⟨rfl, rfl, [], by simp [scan_msg]⟩
      | num lit => exact ⟨rfl, rfl, [], by simp [scan_msg]⟩
      | str s => exact ⟨rfl, rfl, [], by simp [scan_msg]⟩
      | arr xs => exact ⟨rfl, rfl, [], by simp [scan_msg]⟩

theorem scan_fold_ctx (db : Db) (msgs : List Msg) :
    ∀ acc : Option LeadCtx × Slots × Ctx × List String,
    ((msgs.foldl (fun a m => scan_msg db m a) acc).2.2.1.pendingActions
      = acc.2.2.1.pendingActions) ∧
    ((msgs.foldl (fun a m => scan_msg db m a) acc).2.2.1.replanned
      = acc.2.2.1.replanned) ∧
    ∃ suf, (msgs.foldl (fun a m => scan_msg db m a) acc).2.2.1.aiResponses
      = acc.2.2.1.aiResponses ++ suf := by
  induction msgs with
  | nil => intro acc; exact ⟨rfl, rfl, [], by simp⟩
  | cons m rest ih =>
    intro acc
    obtain ⟨h1, h2, suf1, h3⟩ := scan_msg_ctx db m acc
    obtain ⟨g1, g2, suf2, g3⟩ := ih (scan_msg db m acc)
    refine ⟨?_, ?_, suf1 ++ suf2, ?_⟩
    · rw [List.foldl_cons, g1, h1]
    · rw [List.foldl_cons, g2, h2]
    · rw [List.foldl_cons, g3, h3, List.append_assoc]

theorem uc_scan_ctx (db : Db) (st : GState) :
    (uc_scan db st).2.2.pendingActions = st.ctx.pendingActions ∧
    (uc_scan db st).2.2.replanned = st.ctx.replanned ∧
    ∃ suf, (uc_scan db st).2.2.aiResponses = st.ctx.aiResponses ++ suf := by
  unfold uc_scan
  simp only []
  repeat' split
  all_goals first
  | exact scan_fold_ctx db st.messages.reverse _
  | exact ⟨rfl, rfl, [], by simp⟩

theorem uc_inject_isEmpty (newLead : Option LeadCtx) (pending : List PlanAction) :
    (uc_inject newLead pending).isEmpty = pending.isEmpty := by
  unfold uc_inject
  split
  · cases pending <;> rfl
  · rfl

theorem uc_replan_spec (jp : String → Option Json) (qk : String → String)
    (po : Option (List PlannedAction)) (curr : String) (lc2 : Option LeadCtx)
    (ctx2 : Ctx) :
    ((uc_replan jp qk po curr lc2 ctx2).2
      = (ctx2.pendingActions.isEmpty && !ctx2.replanned)) ∧
    ((uc_replan jp qk po curr lc2 ctx2).1.replanned =
      (if (ctx2.pendingActions.isEmpty && !ctx2.replanned) && po.isSome then true
       else ctx2.replanned)) ∧
    ((uc_replan jp qk po curr lc2 ctx2).1.aiResponses = ctx2.aiResponses) := by
  unfold uc_replan
  by_cases h : (ctx2.pendingActions.isEmpty && !ctx2.replanned) = true
  · rw [if_pos h]
    cases po with
    | none =>
      refine ⟨h.symm, ?_, rfl⟩
      rw [h]
      simp
    | some acts =>
      refine ⟨h.symm, ?_, rfl⟩
      rw [h]
      simp
  · rw [if_neg h]
    have hb : (ctx2.pendingActions.isEmpty && !ctx2.replanned) = false :=
      Bool.eq_false_iff.mpr h
    refine ⟨hb.symm, ?_, rfl⟩
    rw [hb]
    simp

theorem update_context_spec (db : Db) (jp : String → Option Json)
    (qk : String → String) (po : Option (List PlannedAction)) (st : GState) :
    ((update_context db jp qk po st).2
      = (st.ctx.pendingActions.isEmpty && !st.ctx.replanned)) ∧
    ((update_context db jp qk po st).1.ctx.replanned =
      (if (st.ctx.pendingActions.isEmpty && !st.ctx.replanned) && po.isSome then true
       else st.ctx.replanned)) := by
  obtain ⟨hsp, hsr, _, _⟩ := uc_scan_ctx db st
  unfold update_context
  simp only []
  have hrp := uc_replan_spec jp qk po st.intent
    (match (if ((uc_scan db st).1.isNone
        && slotTruthy (uc_scan db st).2.1 "lead_ref_ou_id") = true then
        get_lead_context db (((lookupSlot (uc_scan db st).2.1 "lead_ref_ou_id").getD ""))
      else (uc_scan db st).1) with
      | some nl => some nl
      | none => st.leadAtual)
    { (uc_scan db st).2.2 with
      pendingActions := uc_inject
        (if ((uc_scan db st).1.isNone
            && slotTruthy (uc_scan db st).2.1 "lead_ref_ou_id") = true then
          get_lead_context db (((lookupSlot (uc_scan db st).2.1 "lead_ref_ou_id").getD ""))
        else (uc_scan db st).1)
        (uc_scan db st).2.2.pendingActions }
  have hpe : (uc_inject
      (if ((uc_scan db st).1.isNone
          && slotTruthy (uc_scan db st).2.1 "lead_ref_ou_id") = true then
        get_lead_context db (((lookupSlot (uc_scan db st).2.1 "lead_ref_ou_id").getD ""))
      else (uc_scan db st).1)
      (uc_scan db st).2.2.pendingActions).isEmpty
      = st.ctx.pendingActions.isEmpty := by
    rw [uc_inject_isEmpty, hsp]
  constructor
  · rw [hrp.1]
    simp only []
    rw [hpe, hsr]
  · rw [hrp.2.1]
    simp only []
    rw [hpe, hsr]

/-- On the raising branch of the supplementary invocation (plannerOut
none) the enclosing try leaves the context untouched. -/
theorem uc_replan_none (jp : String → Option Json) (qk : String → String)
    (curr : String) (lc2 : Option LeadCtx) (ctx2 : Ctx) :
    (uc_replan jp qk none curr lc2 ctx2).1 = ctx2 := by
  unfold uc_replan
  split
  · rfl
  · rfl

/-- A consolidation pass whose supplementary invocation raises cannot
refill the queue: with plannerOut none the emptiness of the pending queue
is preserved through update_context. -/
theorem update_context_none_queue (db : Db) (jp : String → Option Json)
    (qk : String → String) (st : GState) :
    (update_context db jp qk none st).1.ctx.pendingActions.isEmpty
      = st.ctx.pendingActions.isEmpty := by
  obtain ⟨hsp, _, _, _⟩ := uc_scan_ctx db st
  unfold update_context
  simp only []
  rw [uc_replan_none]
  simp only []
  rw [uc_inject_isEmpty, hsp]

/-- Once replanned is set it stays set through any further
update_context call of the turn. -/
theorem update_context_replanned_mono (db : Db) (jp : String → Option Json)
    (qk : String → String) (po : Option (List PlannedAction)) (st : GState)
    (h : st.ctx.replanned = true) :
    (update_context db jp qk po st).1.ctx.replanned = true := by
  rw [(update_context_spec db jp qk po st).2, h]
  simp

/-- The consolidation loop of one turn, following the graph edges out of
update_context: each pass first applies a transformation standing for the
nodes traversed between two update_context calls (execute_pending, the
router, possibly resolve_lead, then a handler — none of them touches the
replanned flag), then runs update_context, and then the conditional edge
evaluates has_pending: on "execute" the loop continues with the remaining
passes, on "done" the graph routes to respond_final and the turn ends,
discarding them.  The count adds every supplementary planner invocation,
raising or not. -/
def run_turn (db : Db) (jp : String → Option Json) (qk : String → String) :
    List ((GState → GState) × Option (List PlannedAction)) → GState → Nat
  | [], _ => 0
  | p :: rest, st =>
    (if (update_context db jp qk p.2 (p.1 st)).2 then 1 else 0)
      + (if has_pending (update_context db jp qk p.2 (p.1 st)).1 = "execute"
        then run_turn db jp qk rest (update_context db jp qk p.2 (p.1 st)).1
        else 0)

theorem run_turn_zero (db : Db) (jp : String → Option Json)
    (qk : String → String)
    (passes : List ((GState → GState) × Option (List PlannedAction))) :
    ∀ st : GState,
    (∀ p ∈ passes, ∀ s : GState, ((p.1) s).ctx.replanned = s.ctx.replanned) →
    st.ctx.replanned = true →
    run_turn db jp qk passes st = 0 := by
  induction passes with
  | nil => intro st _ _; rfl
  | cons p rest ih =>
    intro st hpres hrep
    have h1 : (p.1 st).ctx.replanned = true :=
      (hpres p (List.mem_cons_self p rest) st).trans hrep
    have hinv : (update_context db jp qk p.2 (p.1 st)).2 = false := by
      rw [(update_context_spec db jp qk p.2 (p.1 st)).1, h1]
      simp
    have hrep2 : (update_context db jp qk p.2 (p.1 st)).1.ctx.replanned = true :=
      update_context_replanned_mono db jp qk p.2 (p.1 st) h1
    show (if (update_context db jp qk p.2 (p.1 st)).2 = true then 1 else 0)
      + (if has_pending (update_context db jp qk p.2 (p.1 st)).1 = "execute"
        then run_turn db jp qk rest (update_context db jp qk p.2 (p.1 st)).1
        else 0) = 0
    rw [hinv]
    simp only [Bool.false_eq_true, if_false, Nat.zero_add]
    split
    · exact ih (update_context db jp qk p.2 (p.1 st)).1
        (fun q hq => hpres q (List.mem_cons_of_mem p hq)) hrep2
    · rfl

theorem run_turn_le_one (db : Db) (jp : String → Option Json)
    (qk : String → String)
    (passes : List ((GState → GState) × Option (List PlannedAction))) :
    ∀ st : GState,
    (∀ p ∈ passes, ∀ s : GState, ((p.1) s).ctx.replanned = s.ctx.replanned) →
    run_turn db jp qk passes st ≤ 1 := by
  induction passes with
  | nil => intro st _; exact Nat.zero_le 1
  | cons p rest ih =>
    intro st hpres
    show (if (update_context db jp qk p.2 (p.1 st)).2 = true then 1 else 0)
      + (if has_pending (update_context db jp qk p.2 (p.1 st)).1 = "execute"
        then run_turn db jp qk rest (update_context db jp qk p.2 (p.1 st)).1
        else 0) ≤ 1
    by_cases hi : (update_context db jp qk p.2 (p.1 st)).2 = true
    · cases hpo : p.2 with
      | none =>
        rw [hpo] at hi
        have hqe : (p.1 st).ctx.pendingActions.isEmpty = true := by
          rw [(update_context_spec db jp qk none (p.1 st)).1] at hi
          exact (Bool.and_eq_true_iff.mp hi).1
        have hq2 : (update_context db jp qk none
            (p.1 st)).1.ctx.pendingActions.isEmpty = true := by
          rw [update_context_none_queue]
          exact hqe
        have hdone : has_pending (update_context db jp qk none (p.1 st)).1
            = "done" := by
          unfold has_pending
          rw [hq2]
          rfl
        have hne : ¬(has_pending (update_context db jp qk none (p.1 st)).1
            = "execute") := by
          rw [hdone]
          decide
        rw [hi, if_neg hne]
        simp
      | some acts =>
        rw [hpo] at hi
        have hspec := update_context_spec db jp qk (some acts) (p.1 st)
        have hrep2 : (update_context db jp qk (some acts)
            (p.1 st)).1.ctx.replanned = true := by
          rw [hspec.2, ← hspec.1, hi]
          simp
        rw [hi, run_turn_zero db jp qk rest
          (update_context db jp qk (some acts) (p.1 st)).1
          (fun q hq => hpres q (List.mem_cons_of_mem p hq)) hrep2]
        simp
    · rw [if_neg hi, Nat.zero_add]
      split
      · exact ih (update_context db jp qk p.2 (p.1 st)).1
          (fun q hq => hpres q (List.mem_cons_of_mem p hq))
      · exact Nat.zero_le 1

/-- C4: the supplementary planner invocation inside update_context runs
only when the consolidated pending queue is empty and the replanned flag
is not yet set; an invocation that returns normally sets replanned; and
an invocation that raises leaves the queue empty, so has_pending answers
done and the conditional edge ends the turn at respond_final.  Hence
along the consolidation loop of one turn — the passes between two
update_context calls never touching the replanned flag — the
supplementary planner call occurs at most once, however often the queue
empties. -/
theorem C4_replan_bound :
    (∀ (db : Db) (jp : String → Option Json) (qk : String → String)
       (po : Option (List PlannedAction)) (st : GState),
       (update_context db jp qk po st).2 = true →
       st.ctx.pendingActions = [] ∧ st.ctx.replanned = false) ∧
    (∀ (db : Db) (jp : String → Option Json) (qk : String → String)
       (acts : List PlannedAction) (st : GState),
       (update_context db jp qk (some acts) st).2 = true →
       (update_context db jp qk (some acts) st).1.ctx.replanned = true) ∧
    (∀ (db : Db) (jp : String → Option Json) (qk : String → String)
       (passes : List ((GState → GState) × Option (List PlannedAction)))
       (st : GState),
       (∀ p ∈ passes, ∀ s : GState, ((p.1) s).ctx.replanned = s.ctx.replanned) →
       run_turn db jp qk passes st ≤ 1) := by
  refine ⟨?_, ?_, ?_⟩
  · intro db jp qk po st h
    rw [(update_context_spec db jp qk po st).1] at h
    obtain ⟨h1, h2⟩ := Bool.and_eq_true_iff.mp h
    constructor
    · exact List.isEmpty_iff.mp h1
    · simpa using h2
  · intro db jp qk acts st h
    have hspec := update_context_spec db jp qk (some acts) st
    rw [hspec.2, ← hspec.1, h]
    simp
  · intro db jp qk passes st hpres
    exact run_turn_le_one db jp qk passes st hpres

/-- A normally-returning invocation at a concrete empty-queue state sets
replanned, and a turn whose two consolidation passes both reach the
supplementary invocation with a raising planner still invokes it at most
once: the first raise leaves the queue empty and the conditional edge
ends the turn. -/
theorem C4_replan_bound_witness :
    ((update_context ⟨[]⟩ (fun _ => none) id (some [])
        { messages := [], intent := "", slots := [], leadAtual := none,
          errors := [], toolResult := none, ctx := {} }).1.ctx.replanned = true) ∧
    run_turn ⟨[]⟩ (fun _ => none) id [(id, none), (id, none)]
        { messages := [], intent := "", slots := [], leadAtual := none,
          errors := [], toolResult := none, ctx := {} } ≤ 1 := by
  constructor
  · exact C4_replan_bound.2.1 ⟨[]⟩ (fun _ => none) id []
      { messages := [], intent := "", slots := [], leadAtual := none,
        errors := [], toolResult := none, ctx := {} } rfl
  · refine C4_replan_bound.2.2 ⟨[]⟩ (fun _ => none) id
      [(id, none), (id, none)]
      { messages := [], intent := "", slots := [], leadAtual := none,
        errors := [], toolResult := none, ctx := {} } ?_
    intro p hp s
    rcases List.mem_cons.mp hp with h | h
    · subst h; rfl
    · rcases List.mem_cons.mp h with h2 | h2
      · subst h2; rfl
      · cases h2

-- ===========================================================================
-- workflow.respond_final and the direct note/task handlers.  Tool calls
-- are oracle parameters producing an envelope with either data or an
-- error (message plus optional disambiguation matches).
-- ===========================================================================

inductive ToolResp where
  | ok (message : String) (data : Json)
  | err (message : Option String) (ms : List MatchRow)

/-- Items of a data payload (list payloads only). -/
def itemsOf (data : Json) : List Json :=
  match jGet data "items" with
  | some (Json.arr xs) => xs
  | _ => []

/-- The successful-segment text selector of respond_final. -/
def seg_txt_ok (seg : Seg) : Option String :=
  let t := trimS seg.text
  if t = "" then none else if seg.ok then some t else none

/-- The failed-segment text selector of respond_final. -/
def seg_txt_err (seg : Seg) : Option String :=
  let t := trimS seg.text
  if t = "" then none else if seg.ok then none else some t

/-- workflow.respond_final: the deterministic status lookup answers (and
records a segment) directly; with no nonempty segment texts the latest
message text is echoed; otherwise the finalizer collaborator summarizes
the successes and failures and ai_responses is cleared for the next turn.
The status tool call is the oracle statusRes (none models an exception
caught by the surrounding try) and the finalizer LLM is the oracle
finalizer. -/
def respond_final (statusRes : Option ToolResp) (finalizer : String → String)
    (st : GState) : GState :=
  let ctx := st.ctx
  if st.intent = "listar_status_lead" then
    match statusRes with
    | none =>
      let msg := "Não foi possível listar os status de lead agora."
      { st with
        ctx := push_ai_response ctx st.intent msg false []
        messages := st.messages ++ [Msg.ai msg] }
    | some (ToolResp.err m _) =>
      let msg := m.getD "Erro ao listar status de lead."
      { st with
        ctx := push_ai_response ctx st.intent msg false []
        messages := st.messages ++ [Msg.ai msg] }
    | some (ToolResp.ok _ data) =>
      let items := itemsOf data
      let codigos := if items.isEmpty then "nenhum"
        else joinWith ", " (items.map (fun it => jsonToStrOpt (jGet it "codigo")))
      let totalS := jsonToStrOpt (jGet data "total")
      let msg := "Status de lead válidos (" ++ totalS ++ "): " ++ codigos ++ "."
      { st with
        ctx := push_ai_response ctx st.intent msg true [("total", totalS)]
        messages := st.messages ++ [Msg.ai msg] }
  else
    let actionsTxt := ctx.aiResponses.filterMap seg_txt_ok
    let errorsTxt := ctx.aiResponses.filterMap seg_txt_err
    if actionsTxt.isEmpty && errorsTxt.isEmpty then
      let textContent := match st.messages.getLast? with
        | some m => extractTextContent m
        | none => ""
      { st with messages := st.messages ++ [Msg.ai textContent] }
    else
      let userText := (st.messages.reverse.findSome? (fun m =>
        match m with
        | Msg.human t => some t
        | _ => none)).getD ""
      let parts :=
        (if userText = "" then [] else ["Prompt do usuário: " ++ userText])
        ++ (if actionsTxt.isEmpty then [] else
          ["Ações executadas:\n" ++ joinWith "\n" (actionsTxt.map (fun t => "- " ++ t))])
        ++ (if errorsTxt.isEmpty then [] else
          ["Falhas:\n" ++ joinWith "\n" (errorsTxt.map (fun t => "- " ++ t))])
      let finalText := finalizer (joinWith "\n\n" parts)
      { st with
        ctx := { ctx with aiResponses := [] }
        messages := st.messages ++ [Msg.ai finalText] }

/-- The slot-or-lead_atual reference both handlers start from. -/
def leadRefOf (slots : Slots) (leadAtual : Option LeadCtx) : Option String :=
  if slotTruthy slots "lead_ref_ou_id" then lookupSlot slots "lead_ref_ou_id"
  else
    match leadAtual with
    | some la => if la.leadId = "" then none else some la.leadId
    | none => none

/-- workflow.handle_notes, with the two note tools as oracles. -/
def handle_notes (addNote : String → String → ToolResp)
    (listNotes : String → ToolResp) (st : GState) : GState :=
  let intent := st.intent
  let slots := st.slots
  match leadRefOf slots st.leadAtual with
  | none =>
    { st with messages := st.messages
        ++ [Msg.ai "Preciso de um lead para trabalhar com notas."] }
  | some leadRef =>
    if intent = "nota_adicionar" then
      if !(slotTruthy slots "texto") then
        { st with messages := st.messages ++ [Msg.ai "Preciso do texto da nota."] }
      else
        match addNote leadRef ((lookupSlot slots "texto").getD "") with
        | ToolResp.err m _ =>
          let msg := m.getD "Erro ao processar nota."
          { st with
            ctx := push_ai_response st.ctx intent msg false [("lead_ref", leadRef)]
            messages := st.messages ++ [Msg.ai msg] }
        | ToolResp.ok _ _ =>
          { st with
            ctx := push_ai_response st.ctx intent "Nota registrada com sucesso."
              true [("lead_ref", leadRef)]
            messages := st.messages ++ [Msg.ai "Nota registrada com sucesso."] }
    else if intent = "nota_listar" then
      match listNotes leadRef with
      | ToolResp.err m _ =>
        let msg := m.getD "Erro ao processar nota."
        { st with
          ctx := push_ai_response st.ctx intent msg false [("lead_ref", leadRef)]
          messages := st.messages ++ [Msg.ai msg] }
      | ToolResp.ok _ data =>
        let n := (itemsOf data).length
        let msg := "Encontrei " ++ toString n ++ " notas."
        { st with
          ctx := push_ai_response st.ctx intent msg true
            [("lead_ref", leadRef), ("total", toString n)]
          messages := st.messages ++ [Msg.ai msg] }
    else
      { st with messages := st.messages
          ++ [Msg.ai ("Intent não suportado: " ++ intent)] }

/-- The strict YYYY-MM-DD shape accepted for data_limite. -/
def isIsoDate (s : String) : Bool :=
  match s.toList with
  | [a, b, c, d, '-', e, f, '-', g, h] =>
    a.isDigit && b.isDigit && c.isDigit && d.isDigit
      && e.isDigit && f.isDigit && g.isDigit && h.isDigit
  | _ => false

/-- workflow.handle_tasks, with the three task tools as oracles and the
current and next day as explicit dates. -/
def handle_tasks (createTask : List (String × String) → ToolResp)
    (completeTask : String → ToolResp)
    (listTasks : List (String × String) → ToolResp)
    (today tomorrow : String) (st : GState) : GState :=
  let intent := st.intent
  let slots := st.slots
  if intent = "tarefa_criar" then
    match leadRefOf slots st.leadAtual with
    | none =>
      { st with messages := st.messages
          ++ [Msg.ai "Preciso de um lead para criar a tarefa."] }
    | some leadRef =>
      if !(slotTruthy slots "titulo") then
        { st with messages := st.messages ++ [Msg.ai "Preciso do título da tarefa."] }
      else
        let payload := [("lead_ref_ou_id", leadRef),
          ("titulo", (lookupSlot slots "titulo").getD "")]
        let payload := if slotTruthy slots "tipo" then
            payload ++ [("tipo", (lookupSlot slots "tipo").getD "")]
          else payload
        let payload := match lookupSlot slots "data_limite" with
          | some dl =>
            let s := lowerS (trimS dl)
            if s = "amanha" || s = "amanhã" then payload ++ [("data_limite", tomorrow)]
            else if s = "hoje" then payload ++ [("data_limite", today)]
            else if isIsoDate s then payload ++ [("data_limite", s)]
            else payload
          | none => payload
        match createTask payload with
        | ToolResp.err m _ =>
          let msg := m.getD "Erro ao criar tarefa."
          { st with
            ctx := push_ai_response st.ctx intent msg false payload
            messages := st.messages ++ [Msg.ai msg] }
        | ToolResp.ok _ data =>
          let tid := jsonToStrOpt (jGet data "tarefa_id")
          { st with
            ctx := push_ai_response st.ctx intent "Tarefa criada" true
              [("tarefa_id", tid)]
            messages := st.messages
              ++ [Msg.ai ("Tarefa criada com sucesso. ID: " ++ tid)] }
  else if intent = "tarefa_concluir" then
    let tarefaId : Option String :=
      if slotTruthy slots "tarefa_id" then lookupSlot slots "tarefa_id"
      else
        match leadRefOf slots st.leadAtual with
        | some leadRef =>
          match listTasks [("lead_ref_ou_id", leadRef), ("status", "aberta")] with
          | ToolResp.ok _ data =>
            match itemsOf data with
            | it :: _ => some (jsonToStrOpt (jGet it "tarefa_id"))
            | [] => none
          | ToolResp.err _ _ => none
        | none => none
    match tarefaId with
    | none =>
      { st with messages := st.messages
          ++ [Msg.ai "Preciso do ID da tarefa para concluir."] }
    | some tid =>
      match completeTask tid with
      | ToolResp.err m _ =>
        let msg := m.getD "Erro ao concluir tarefa."
        { st with
          ctx := push_ai_response st.ctx intent msg false [("tarefa_id", tid)]
          messages := st.messages ++ [Msg.ai msg] }
      | ToolResp.ok _ _ =>
        { st with
          ctx := push_ai_response st.ctx intent "Tarefa concluída" true
            [("tarefa_id", tid)]
          messages := st.messages ++ [Msg.ai "Tarefa concluída com sucesso."] }
  else if intent = "tarefa_listar" then
    let payload :=
      (match leadRefOf slots st.leadAtual with
       | some leadRef => [("lead_ref_ou_id", leadRef)]
       | none => []) ++
      (if slotTruthy slots "status" then
        [("status", (lookupSlot slots "status").getD "")]
       else [])
    match listTasks payload with
    | ToolResp.ok _ data =>
      let n := (itemsOf data).length
      let msg := "Encontrei " ++ toString n ++ " tarefas."
      { st with
        ctx := push_ai_response st.ctx intent msg true [("total", toString n)]
        messages := st.messages ++ [Msg.ai msg] }
    | ToolResp.err m _ =>
      let msg := m.getD "Erro ao listar tarefas."
      if dataTruthy payload "lead_ref_ou_id"
          && startsWithS (lowerS msg) "lead não encontrado" then
        let fb := match dataGet payload "status" with
          | some v => [("status", v)]
          | none => []
        match listTasks fb with
        | ToolResp.ok _ data =>
          let n := (itemsOf data).length
          let msg2 := "Encontrei " ++ toString n ++ " tarefas."
          { st with
            ctx := push_ai_response st.ctx intent msg2 true [("total", toString n)]
            messages := st.messages ++ [Msg.ai msg2] }
        | ToolResp.err _ _ =>
          { st with
            ctx := push_ai_response st.ctx intent msg false payload
            messages := st.messages ++ [Msg.ai msg] }
      else
        { st with
          ctx := push_ai_response st.ctx intent msg false payload
          messages := st.messages ++ [Msg.ai msg] }
  else
    { st with messages := st.messages
        ++ [Msg.ai ("Intent não suportado: " ++ intent)] }

-- ===========================================================================
-- C7: who clears ai_responses.
-- ===========================================================================

theorem router_block_ctx_air (intent : String) (missing : List String) (ctx : Ctx) :
    (router_block_ctx intent missing ctx).aiResponses = ctx.aiResponses := by
  unfold router_block_ctx
  simp only []
  repeat' split
  all_goals rfl

theorem router_textual_ctx_air (intent : String) (slots : Slots)
    (leadAtual : Option LeadCtx) (ctx : Ctx) :
    (router_textual_ctx intent slots leadAtual ctx).aiResponses = ctx.aiResponses := by
  unfold router_textual_ctx
  split
  all_goals rfl

theorem router_node_air (st : GState) :
    (router_node st).ctx.aiResponses = st.ctx.aiResponses := by
  unfold router_node
  simp only []
  rw [router_textual_ctx_air, router_block_ctx_air]

theorem resolve_lead_step5_air (slots : Slots) (ctx : Ctx) (st : GState) :
    (resolve_lead_step5 slots ctx st).ctx.aiResponses = ctx.aiResponses := rfl

theorem resolve_lead_step4_with_air (db : Db) (term : String) (slots : Slots)
    (ctx : Ctx) (st : GState) :
    (resolve_lead_step4_with db term slots ctx st).ctx.aiResponses
      = ctx.aiResponses := by
  unfold resolve_lead_step4_with
  repeat' split
  all_goals rfl

theorem resolve_lead_step4_air (db : Db) (slots : Slots) (ctx : Ctx) (st : GState) :
    (resolve_lead_step4 db slots ctx st).ctx.aiResponses = ctx.aiResponses := by
  unfold resolve_lead_step4
  simp only []
  exact resolve_lead_step4_with_air db _ slots ctx st

theorem resolve_lead_step3_air (db : Db) (slots : Slots) (ctx : Ctx) (st : GState) :
    (resolve_lead_step3 db slots ctx st).ctx.aiResponses = ctx.aiResponses := by
  unfold resolve_lead_step3
  simp only []
  repeat' split
  all_goals first
  | rfl
  | exact resolve_lead_step4_air db slots ctx st

theorem resolve_lead_air (db : Db) (st : GState) :
    (resolve_lead db st).ctx.aiResponses = st.ctx.aiResponses := by
  unfold resolve_lead
  simp only []
  repeat' split
  all_goals first
  | rfl
  | exact resolve_lead_step3_air db st.slots
      { st.ctx with leadResolutionAttempted := true } st

theorem prepare_plan_air (jp : String → Option Json) (qk : String → String)
    (po : Option (List PlannedAction)) (st : GState) :
    (prepare_plan jp qk po st).ctx.aiResponses = st.ctx.aiResponses := by
  unfold prepare_plan
  simp only []
  repeat' split
  all_goals rfl

theorem execute_pending_air (st : GState) :
    (execute_pending st).ctx.aiResponses = st.ctx.aiResponses := by
  unfold execute_pending
  split
  all_goals rfl

theorem update_context_air (db : Db) (jp : String → Option Json)
    (qk : String → String) (po : Option (List PlannedAction)) (st : GState) :
    ∃ suf, (update_context db jp qk po st).1.ctx.aiResponses
      = st.ctx.aiResponses ++ suf := by
  obtain ⟨_, _, suf, hs⟩ := uc_scan_ctx db st
  refine ⟨suf, ?_⟩
  unfold update_context
  simp only []
  have hrp := uc_replan_spec jp qk po st.intent
    (match (if ((uc_scan db st).1.isNone
        && slotTruthy (uc_scan db st).2.1 "lead_ref_ou_id") = true then
        get_lead_context db (((lookupSlot (uc_scan db st).2.1 "lead_ref_ou_id").getD ""))
      else (uc_scan db st).1) with
      | some nl => some nl
      | none => st.leadAtual)
    { (uc_scan db st).2.2 with
      pendingActions := uc_inject
        (if ((uc_scan db st).1.isNone
            && slotTruthy (uc_scan db st).2.1 "lead_ref_ou_id") = true then
          get_lead_context db (((lookupSlot (uc_scan db st).2.1 "lead_ref_ou_id").getD ""))
        else (uc_scan db st).1)
        (uc_scan db st).2.2.pendingActions }
  rw [hrp.2.2]
  exact hs

theorem handle_notes_air (addNote : String → String → ToolResp)
    (listNotes : String → ToolResp) (st : GState) :
    ∃ suf, (handle_notes addNote listNotes st).ctx.aiResponses
      = st.ctx.aiResponses ++ suf := by
  unfold handle_notes
  simp only []
  repeat' split
  all_goals first
  | exact ⟨_, rfl⟩
  | exact ⟨[], (List.append_nil _).symm⟩

theorem handle_tasks_air (createTask : List (String × String) → ToolResp)
    (completeTask : String → ToolResp)
    (listTasks : List (String × String) → ToolResp)
    (today tomorrow : String) (st : GState) :
    ∃ suf, (handle_tasks createTask completeTask listTasks today tomorrow st).ctx.aiResponses
      = st.ctx.aiResponses ++ suf := by
  unfold handle_tasks
  simp only []
  repeat' split
  all_goals first
  | exact ⟨_, rfl⟩
  | exact ⟨[], (List.append_nil _).symm⟩

/-- A turn completing through the deterministic status lookup of
respond_final leaves the pushed segment in ai_responses. -/
def stStatus : GState :=
  { messages := [Msg.human "status"], intent := "listar_status_lead",
    slots := [], leadAtual := none, errors := [], toolResult := none,
    ctx := {} }

/-- C7 counterexample: respond_final completes on the listar_status_lead
shortcut (the status tool call succeeds) and the context keeps a nonempty
ai_responses list, so not every completion of respond_final clears it. -/
theorem C7_ai_responses_clearing_counterexample :
    (respond_final
        (some (ToolResp.ok "ok"
          (Json.obj [("total", Json.num "3"), ("items", Json.arr [])])))
        (fun s => s) stStatus).ctx.aiResponses ≠ [] := by
  have h : (respond_final
      (some (ToolResp.ok "ok"
        (Json.obj [("total", Json.num "3"), ("items", Json.arr [])])))
      (fun s => s) stStatus).ctx.aiResponses
      = [Seg.mk "listar_status_lead" "Status de lead válidos (3): nenhum." true
          [("total", "3")]] := rfl
  rw [h]
  exact List.cons_ne_nil _ _

/-- C7 (amended): the finalizer-synthesis path of respond_final — taken
when the intent is not the status shortcut and some recorded segment has
nonempty text — clears ai_responses, and no other node of the turn ever
removes a recorded segment: router_node, resolve_lead, prepare_plan and
execute_pending leave ai_responses unchanged, while update_context,
handle_notes and handle_tasks only append to it.  (The status-shortcut
and echo completions of respond_final do not clear the list.) -/
theorem C7_ai_responses_clearing_amended :
    (∀ (sr : Option ToolResp) (f : String → String) (st : GState),
      st.intent ≠ "listar_status_lead" →
      (st.ctx.aiResponses.filterMap seg_txt_ok ≠ [] ∨
        st.ctx.aiResponses.filterMap seg_txt_err ≠ []) →
      (respond_final sr f st).ctx.aiResponses = []) ∧
    (∀ st : GState, (router_node st).ctx.aiResponses = st.ctx.aiResponses) ∧
    (∀ (db : Db) (st : GState),
      (resolve_lead db st).ctx.aiResponses = st.ctx.aiResponses) ∧
    (∀ (jp : String → Option Json) (qk : String → String)
        (po : Option (List PlannedAction)) (st : GState),
      (prepare_plan jp qk po st).ctx.aiResponses = st.ctx.aiResponses) ∧
    (∀ st : GState, (execute_pending st).ctx.aiResponses = st.ctx.aiResponses) ∧
    (∀ (db : Db) (jp : String → Option Json) (qk : String → String)
        (po : Option (List PlannedAction)) (st : GState),
      ∃ suf, (update_context db jp qk po st).1.ctx.aiResponses
        = st.ctx.aiResponses ++ suf) ∧
    (∀ (addNote : String → String → ToolResp) (listNotes : String → ToolResp)
        (st : GState),
      ∃ suf, (handle_notes addNote listNotes st).ctx.aiResponses
        = st.ctx.aiResponses ++ suf) ∧
    (∀ (ct : List (String × String) → ToolResp) (co : String → ToolResp)
        (lt : List (String × String) → ToolResp) (today tomorrow : String)
        (st : GState),
      ∃ suf, (handle_tasks ct co lt today tomorrow st).ctx.aiResponses
        = st.ctx.aiResponses ++ suf) := by
  refine ⟨?_, router_node_air, resolve_lead_air, prepare_plan_air,
    execute_pending_air, update_context_air, handle_notes_air, handle_tasks_air⟩
  intro sr f st hintent hne
  unfold respond_final
  simp only []
  rw [if_neg hintent]
  have hcond : ¬(((st.ctx.aiResponses.filterMap seg_txt_ok).isEmpty
      && (st.ctx.aiResponses.filterMap seg_txt_err).isEmpty) = true) := by
    intro hc
    rw [Bool.and_eq_true] at hc
    rcases hne with h | h
    · exact h (List.isEmpty_iff.mp hc.1)
    · exact h (List.isEmpty_iff.mp hc.2)
  rw [if_neg hcond]

/-- The synthesis path at a concrete state with one recorded success
segment: respond_final clears ai_responses, and execute_pending on the
same state leaves the list untouched. -/
theorem C7_ai_responses_clearing_amended_witness :
    (respond_final none (fun s => s)
      { messages := [Msg.human "oi"], intent := "nota_adicionar", slots := [],
        leadAtual := none, errors := [], toolResult := none,
        ctx := { aiResponses :=
          [⟨"nota_adicionar", "Nota registrada com sucesso.", true, []⟩] } }).ctx.aiResponses
      = [] ∧
    (execute_pending
      { messages := [Msg.human "oi"], intent := "nota_adicionar", slots := [],
        leadAtual := none, errors := [], toolResult := none,
        ctx := { aiResponses :=
          [⟨"nota_adicionar", "Nota registrada com sucesso.", true, []⟩] } }).ctx.aiResponses
      = [⟨"nota_adicionar", "Nota registrada com sucesso.", true, []⟩] :=
  ⟨C7_ai_responses_clearing_amended.1 none (fun s => s)
      { messages := [Msg.human "oi"], intent := "nota_adicionar", slots := [],
        leadAtual := none, errors := [], toolResult := none,
        ctx := { aiResponses :=
          [⟨"nota_adicionar", "Nota registrada com sucesso.", true, []⟩] } }
      (by decide) (Or.inl (by decide)),
    C7_ai_responses_clearing_amended.2.2.2.2.1
      { messages := [Msg.human "oi"], intent := "nota_adicionar", slots := [],
        leadAtual := none, errors := [], toolResult := none,
        ctx := { aiResponses :=
          [⟨"nota_adicionar", "Nota registrada com sucesso.", true, []⟩] } }⟩
